import Mathlib

/-!
Verification development for the pyperdeck client-side protocol engine.

Shallow embedding of the sources:
  pyperdeck/timecode.py   (parse_framerate, format_timecode, Timecode)
  pyperdeck/_internals.py (Slot, DiskClip, Timeline, TimelineClip)
  pyperdeck/__init__.py   (Hyperdeck state, message router, response handlers)

Python dynamic behaviour is modelled explicitly: a handler that can raise an
exception returns an Option, where none means an exception escaped the
handler; string fields that can hold Python None are Option String; the
slots dict is an insertion-ordered association list.
-/

/-! ## Decimal rendering and parsing (models Python str(int) and int(str)) -/

/-- Decimal digit character, 0 ≤ n ≤ 9 maps to the characters 0-9. -/
def digitChar (n : Nat) : Char := Char.ofNat (48 + n)

/-- Fuel-driven decimal digit expansion of a natural number; with fuel > n
this is the standard decimal numeral, as produced by Python str(). -/
def natDigitsAux : Nat → Nat → List Char
  | 0, _ => []
  | _fuel+1, n =>
    if n < 10 then [digitChar n]
    else natDigitsAux _fuel (n / 10) ++ [digitChar (n % 10)]

/-- Decimal numeral of a natural number (Python str() for a nonnegative int). -/
def natDigits (n : Nat) : List Char := natDigitsAux (n + 1) n

/-- Python str() of an int, as a character list. -/
def intDigits (i : Int) : List Char :=
  if i < 0 then Char.ofNat 45 :: natDigits i.natAbs else natDigits i.toNat

/-- Python str(n) for a nonnegative index, as a String (used for dict keys
and f-string interpolation of slot ids). -/
def pyStrNat (n : Nat) : String := String.mk (natDigits n)

/-- Python f-string {x:02} formatting of an int: decimal text, left padded
with one zero when shorter than two characters. -/
def fmt02 (i : Int) : List Char :=
  let ds := intDigits i
  if ds.length < 2 then Char.ofNat 48 :: ds else ds

/-- Numeric value of a decimal digit character, none for any other char. -/
def digitVal (c : Char) : Option Nat :=
  if 48 ≤ c.toNat ∧ c.toNat ≤ 57 then some (c.toNat - 48) else none

/-- Accumulating decimal parse of a digit-character list. -/
def parseDigitsAux (acc : Nat) : List Char → Option Nat
  | [] => some acc
  | c :: cs => match digitVal c with
    | some d => parseDigitsAux (acc * 10 + d) cs
    | none => none

/-- Python int(str) on the strings this protocol carries: an optional sign
followed by one or more decimal digits; anything else raises ValueError,
modelled as none.  (Python also tolerates surrounding whitespace and
underscore separators; no such string is produced by this program.) -/
def pyIntChars (l : List Char) : Option Int :=
  match l with
  | [] => none
  | c :: rest =>
    if c = Char.ofNat 45 then
      match rest with
      | [] => none
      | _ => (parseDigitsAux 0 rest).map (fun k => -(k : Int))
    else if c = Char.ofNat 43 then
      match rest with
      | [] => none
      | _ => (parseDigitsAux 0 rest).map (fun k => (k : Int))
    else (parseDigitsAux 0 l).map (fun k => (k : Int))

/-- Python int() applied to a String. -/
def pyInt (s : String) : Option Int := pyIntChars s.data

/-! ## Python string-splitting primitives used by the source -/

/-- Python field.split(sep) for the two-character separator colon-space:
splits at every non-overlapping occurrence, left to right. -/
def splitColonSpace : List Char → List (List Char)
  | [] => [[]]
  | ':' :: ' ' :: rest => [] :: splitColonSpace rest
  | c :: rest =>
    match splitColonSpace rest with
    | h :: t => (c :: h) :: t
    | [] => [[c]]

/-- prop, value = field.split(colon-space): succeeds only when the split
has exactly two parts, otherwise Python raises ValueError (none). -/
def pyKV (line : String) : Option (String × String) :=
  match (splitColonSpace line.data).map String.mk with
  | [p, v] => some (p, v)
  | _ => none

/-- Python s.split(space-character, maxsplit 1): parts before and after the
first space; none when the string has no space (the caller then fails on
indexing the second element). -/
def splitFirstSpace : List Char → Option (List Char × List Char)
  | [] => none
  | ' ' :: rest => some ([], rest)
  | c :: rest => (splitFirstSpace rest).map (fun p => (c :: p.1, p.2))

/-- Python s.rsplit(space-character, maxsplit 1): parts before and after the
last space, none if no space occurs. -/
def rsplitLast : List Char → Option (List Char × List Char)
  | [] => none
  | c :: rest =>
    match rsplitLast rest with
    | some (a, b) => some (c :: a, b)
    | none => if c = ' ' then some ([], rest) else none

/-- Python s.rstrip(chars): drop from the right every trailing character
belonging to the given set. -/
def rstripSet (cs : List Char) (l : List Char) : List Char :=
  (l.reverse.dropWhile (fun c => cs.contains c)).reverse

/-- Scan helper for substring membership: does any suffix start with sub. -/
def hasPrefixAt (sub : List Char) : List Char → Bool
  | [] => sub.isEmpty
  | c :: rest => sub.isPrefixOf (c :: rest) || hasPrefixAt sub rest

/-- Python substring membership test (sub in s). -/
def pyIn (sub s : String) : Bool := hasPrefixAt sub.data s.data

/-! ## timecode.py -/

/-- parse_framerate from timecode.py: substring checks in source order; a
video format matching no branch falls through, returning Python None. -/
def parse_framerate (video_format : String) : Option Int :=
  if pyIn "50" video_format then some 50
  else if pyIn "5994" video_format then some 60
  else if pyIn "60" video_format then some 60
  else if pyIn "23976" video_format then some 24
  else if pyIn "24" video_format then some 24
  else if pyIn "25" video_format then some 25
  else if pyIn "2997" video_format then some 30
  else if pyIn "30" video_format then some 30
  else none

/-- format_timecode from timecode.py: four 02-padded fields, the final
separator a semicolon when the dropcode flag is set. -/
def format_timecode (hours minutes seconds frames : Int) (dropcode : Bool) : String :=
  String.mk
    (fmt02 hours ++ ':' :: fmt02 minutes ++ ':' :: fmt02 seconds ++
      (if dropcode then ';' else ':') :: fmt02 frames)

/-- The Timecode object of timecode.py: the string, framerate, dropcode
flag, the four parsed component fields and the derived frame_count. -/
structure Timecode where
  timecode : String
  framerate : Int
  dropcode : Bool
  hours : Int
  minutes : Int
  seconds : Int
  frames : Int
  frame_count : Int
deriving Repr, DecidableEq

/-- The frame_count computation of Timecode._calc_frame_count, starting
from the zero initial value. -/
def calcFrameCount (hours minutes seconds frames framerate : Int) : Int :=
  0 + hours * 60 * 60 * framerate + minutes * 60 * framerate +
    seconds * framerate + frames

/-- Timecode.__init__: asserts the string is exactly 11 characters, parses
the four 2-character component slices with int(), detects dropcode by
semicolon membership, derives frame_count.  A failed assert or component
parse raises, modelled as none. -/
def mkTimecode (tc : String) (framerate : Int) : Option Timecode :=
  let d := tc.data
  if d.length = 11 then
    match pyIntChars (d.take 2), pyIntChars ((d.drop 3).take 2),
        pyIntChars ((d.drop 6).take 2), pyIntChars (d.drop 9) with
    | some h, some m, some s, some f =>
      some ⟨tc, framerate, d.contains ';', h, m, s, f,
        calcFrameCount h m s f framerate⟩
    | _, _, _, _ => none
  else none

/-- Timecode.__init__ when the framerate argument may be Python None (as
passed from slot or device state): frame_count arithmetic on None raises
TypeError, so construction fails. -/
def mkTimecodeOpt (tc : String) (framerate : Option Int) : Option Timecode :=
  match framerate with
  | some fr => mkTimecode tc fr
  | none =>
    if tc.data.length = 11 then none else none

/-- One Python borrow loop (while x < 0: y -= 1; x += radix), fuel-driven.
For radix ≥ 1 a fuel of natAbs x always suffices; fuel exhaustion (none)
models the nonterminating loop reached with radix ≤ 0 and x < 0. -/
def borrowF : Nat → Int → Int → Int → Option (Int × Int)
  | 0, _, x, y => if x < 0 then none else some (x, y)
  | fuel+1, radix, x, y =>
    if x < 0 then borrowF fuel radix (x + radix) (y - 1) else some (x, y)

/-- The carry-normalization cascade shared by addition and subtraction:
seconds += frames fdiv framerate; frames fmod framerate; minutes +=
seconds fdiv 60; seconds fmod 60; hours += minutes fdiv 60; minutes
fmod 60.  Python floor division and modulo are Int.fdiv and Int.fmod. -/
def normChain (fr h m s f : Int) : Int × Int × Int × Int :=
  let s1 := s + Int.fdiv f fr
  let f1 := Int.fmod f fr
  let m1 := m + Int.fdiv s1 60
  let s2 := Int.fmod s1 60
  let h1 := h + Int.fdiv m1 60
  let m2 := Int.fmod m1 60
  (h1, m2, s2, f1)

/-- Common tail of Timecode.__add__ (both branches): carry cascade, then
re-render and re-parse through the constructor.  Python raises
ZeroDivisionError when framerate is zero. -/
def addCore (fr : Int) (dropcode : Bool) (h m s f : Int) : Option Timecode :=
  if fr = 0 then none
  else
    match normChain fr h m s f with
    | (h1, m1, s1, f1) => mkTimecode (format_timecode h1 m1 s1 f1 dropcode) fr

/-- Common tail of Timecode.__sub__ (both branches): three borrow loops
(frames at the framerate radix, then seconds and minutes at radix 60),
clamp to all zeros when hours went negative, then the same carry cascade
and re-construction as addition. -/
def subCore (fr : Int) (dropcode : Bool) (h m s f : Int) : Option Timecode :=
  match borrowF f.natAbs fr f s with
  | none => none
  | some (f1, s1) =>
    match borrowF s1.natAbs 60 s1 m with
    | none => none
    | some (s2, m1) =>
      match borrowF m1.natAbs 60 m1 h with
      | none => none
      | some (m2, h1) =>
        let z := if h1 < 0 then ((0 : Int), (0 : Int), (0 : Int), (0 : Int))
                 else (h1, m2, s2, f1)
        match z with
        | (h2, m3, s3, f2) =>
          if fr = 0 then none
          else
            match normChain fr h2 m3 s3 f2 with
            | (h3, m4, s4, f3) =>
              mkTimecode (format_timecode h3 m4 s4 f3 dropcode) fr

/-- The right operand of Timecode addition or subtraction: another
Timecode, an int frame count, or a timecode string. -/
inductive Operand where
  | tc (o : Timecode)
  | int (n : Int)
  | str (s : String)
deriving Repr

/-- Timecode.__add__: componentwise sums (Timecode case) or frame offset
(int case) fed to the carry cascade; a string operand is first parsed at
the left operand framerate. -/
def Timecode.add (t : Timecode) : Operand → Option Timecode
  | .tc o =>
    addCore t.framerate t.dropcode (t.hours + o.hours) (t.minutes + o.minutes)
      (t.seconds + o.seconds) (t.frames + o.frames)
  | .int n =>
    addCore t.framerate t.dropcode t.hours t.minutes t.seconds (t.frames + n)
  | .str s =>
    (mkTimecode s t.framerate).bind (fun o =>
      addCore t.framerate t.dropcode (t.hours + o.hours) (t.minutes + o.minutes)
        (t.seconds + o.seconds) (t.frames + o.frames))

/-- Timecode.__sub__: componentwise differences (Timecode case) or frame
offset (int case) fed to the borrow loops, clamp and carry cascade; a
string operand is first parsed at the left operand framerate. -/
def Timecode.sub (t : Timecode) : Operand → Option Timecode
  | .tc o =>
    subCore t.framerate t.dropcode (t.hours - o.hours) (t.minutes - o.minutes)
      (t.seconds - o.seconds) (t.frames - o.frames)
  | .int n =>
    subCore t.framerate t.dropcode t.hours t.minutes t.seconds (t.frames - n)
  | .str s =>
    (mkTimecode s t.framerate).bind (fun o =>
      subCore t.framerate t.dropcode (t.hours - o.hours) (t.minutes - o.minutes)
        (t.seconds - o.seconds) (t.frames - o.frames))

/-- Convenience total constructor for concrete witness inputs: the parsed
Timecode, defaulting to an all-zero record on failure. -/
def tcOf (s : String) (fr : Int) : Timecode :=
  (mkTimecode s fr).getD ⟨s, fr, false, 0, 0, 0, 0, 0⟩

/-! ## _internals.py : Slot, DiskClip, Timeline, TimelineClip -/

/-- A clip in a media slot (DiskClip of _internals.py). -/
structure DiskClip where
  original : String
  clip_id : Int
  name : String
  file_format : String
  video_format : String
  duration : String
  duration_frames : Int
deriving Repr, DecidableEq

/-- DiskClip.__init__: two right-splits peel duration and video format off
the entry, a third splits name from file format; the duration string is
parsed as a Timecode at the slot framerate to derive the frame count.
Any failed split, parse, assert or None framerate raises (none). -/
def DiskClip.make (clip_id : Int) (entry : String) (framerate : Option Int) :
    Option DiskClip :=
  match rsplitLast entry.data with
  | none => none
  | some (soup1, durationCs) =>
    let duration := String.mk durationCs
    match mkTimecodeOpt duration framerate with
    | none => none
    | some tcd =>
      match rsplitLast soup1 with
      | none => none
      | some (soup2, vfCs) =>
        match rsplitLast soup2 with
        | none => none
        | some (nameCs, ffCs) =>
          some ⟨entry, clip_id, String.mk nameCs, String.mk ffCs,
            String.mk vfCs, duration, tcd.frame_count⟩

/-- A clip on the timeline (TimelineClip of _internals.py). -/
structure TimelineClip where
  original : String
  clip_id : Int
  name : String
  start_timecode : String
  duration : String
  duration_frames : Int
deriving Repr, DecidableEq

/-- TimelineClip.__init__: fixed negative-index slices take the last 11
characters as duration, characters -23..-12 as start timecode and the
rest as name; the duration is parsed as a Timecode at the given
framerate (a short entry or None framerate raises, modelled none). -/
def TimelineClip.make (clip_id : Int) (entry : String) (framerate : Option Int) :
    Option TimelineClip :=
  let d := entry.data
  let n := d.length
  let duration := String.mk (d.drop (n - 11))
  let start_timecode := String.mk ((d.drop (n - 23)).take ((n - 12) - (n - 23)))
  let name := String.mk (d.take (n - 24))
  match mkTimecodeOpt duration framerate with
  | none => none
  | some tcd =>
    some ⟨entry, clip_id, name, start_timecode, duration, tcd.frame_count⟩

/-- A media slot (Slot of _internals.py); framerate is Option because
parse_framerate may store Python None. -/
structure Slot where
  id : Int
  status : Option String
  volume_name : Option String
  recording_time : Int
  video_format : Option String
  framerate : Option Int
  blocked : Bool
  clips : List DiskClip
deriving Repr, DecidableEq

/-- Slot.__init__. -/
def Slot.init (id : Int) : Slot := ⟨id, none, none, 0, none, some 0, false, []⟩

/-- Slot._slot_info: field loop updating status, volume name, recording
time (int), video format (and derived framerate), blocked. -/
def Slot.slotInfo (sl : Slot) : List String → Option Slot
  | [] => some sl
  | line :: rest =>
    match pyKV line with
    | none => none
    | some (prop, value) =>
      if prop = "status" then Slot.slotInfo { sl with status := some value } rest
      else if prop = "volume name" then
        Slot.slotInfo { sl with volume_name := some value } rest
      else if prop = "recording time" then
        match pyInt value with
        | none => none
        | some k => Slot.slotInfo { sl with recording_time := k } rest
      else if prop = "video format" then
        Slot.slotInfo
          { sl with video_format := some value, framerate := parse_framerate value } rest
      else if prop = "blocked" then
        Slot.slotInfo { sl with blocked := value = "true" } rest
      else Slot.slotInfo sl rest

/-- Slot._disk_list body loop: skip the slot id field, parse every other
key as a clip id and build a DiskClip from its value. -/
def Slot.diskListLoop (framerate : Option Int) :
    List String → Option (List DiskClip)
  | [] => some []
  | line :: rest =>
    match pyKV line with
    | none => none
    | some (prop, value) =>
      if prop = "slot id" then Slot.diskListLoop framerate rest
      else
        match pyInt prop with
        | none => none
        | some cid =>
          match DiskClip.make cid value framerate with
          | none => none
          | some clip =>
            (Slot.diskListLoop framerate rest).map (fun cs => clip :: cs)

/-- Slot._disk_list: replaces the clip list wholesale from the body. -/
def Slot.diskList (sl : Slot) (body : List String) : Option Slot :=
  (Slot.diskListLoop sl.framerate body).map (fun cs => { sl with clips := cs })

/-- The playback timeline (Timeline of _internals.py). -/
structure Timeline where
  clips : List TimelineClip
  framerate : Option Int
  duration : Int
deriving Repr, DecidableEq

/-- Timeline.__init__. -/
def Timeline.init : Timeline := ⟨[], some 0, 0⟩

/-- Timeline._clip_info field loop: skips the clip count field, builds a
TimelineClip per entry, adds each duration onto the running total and
appends to the clip list. -/
def Timeline.clipInfoLoop (framerate : Option Int) (duration : Int)
    (clips : List TimelineClip) : List String → Option (Int × List TimelineClip)
  | [] => some (duration, clips)
  | line :: rest =>
    match pyKV line with
    | none => none
    | some (prop, value) =>
      if prop = "clip count" then
        Timeline.clipInfoLoop framerate duration clips rest
      else
        match pyInt prop with
        | none => none
        | some cid =>
          match TimelineClip.make cid value framerate with
          | none => none
          | some clip =>
            Timeline.clipInfoLoop framerate (duration + clip.duration_frames)
              (clips ++ [clip]) rest

/-- Timeline._clip_info: resets the clip list, records the framerate, then
runs the field loop.  Note the source resets clips but not duration, so
the running total starts from the previous duration value. -/
def Timeline.clipInfo (tl : Timeline) (body : List String)
    (framerate : Option Int) : Option Timeline :=
  (Timeline.clipInfoLoop framerate tl.duration [] body).map
    (fun p => { tl with clips := p.2, framerate := framerate, duration := p.1 })

/-! ## Insertion-ordered dictionary (Python dict with string keys) -/

/-- Python dict lookup, none models KeyError. -/
def dget (m : List (String × Slot)) (k : String) : Option Slot :=
  match m with
  | [] => none
  | (k1, v) :: rest => if k1 = k then some v else dget rest k

/-- Python dict assignment: an existing key is updated in place, a new key
is appended (insertion order preserved). -/
def dset (m : List (String × Slot)) (k : String) (v : Slot) :
    List (String × Slot) :=
  match m with
  | [] => [(k, v)]
  | (k1, v1) :: rest =>
    if k1 = k then (k, v) :: rest else (k1, v1) :: dset rest k v

/-! ## __init__.py : Hyperdeck state and handlers -/

/-- The mutable state of the Hyperdeck object: every field assigned in
__init__ (connection plumbing aside).  String fields initialised to
Python None are Option String; active_slot and framerate can be
reassigned to None at runtime and are Option Int. -/
structure Hyperdeck where
  model : Option String
  protocol_version : Option String
  software_version : Option String
  unique_id : Option String
  slot_count : Int
  slots : List (String × Slot)
  remaining_time : Int
  status : Option String
  speed : Int
  slot_id : Int
  active_slot : Option Int
  clip_id : Int
  single_clip : Option Bool
  display_timecode : Option String
  timecode : Option String
  video_format : Option String
  framerate : Option Int
  loop : Option Bool
  timeline_playhead : Int
  input_video_format : Option String
  dynamic_range : Option String
  stop_mode : Option String
  timeline_in : Int
  timeline_out : Int
  audio_input : Option String
  audio_mapping : Int
  video_input : Option String
  file_format : Option String
  audio_codec : Option String
  timecode_input : Option String
  timecode_output : Option String
  timecode_preference : Option String
  timecode_preset : Option String
  audio_input_channels : Int
  record_trigger : Option String
  recordPrefix : Option String
  append_timestamp : Bool
  genlock_input_resync : Bool
  timeline : Timeline
deriving Repr, DecidableEq

/-- The field values set by Hyperdeck.__init__ (record_prefix in the
source is recordPrefix here). -/
def initState : Hyperdeck :=
  { model := none, protocol_version := none, software_version := none
    unique_id := none, slot_count := 0, slots := [], remaining_time := 0
    status := none, speed := 0, slot_id := 0, active_slot := some 0
    clip_id := 0, single_clip := none, display_timecode := none
    timecode := none, video_format := none, framerate := some 0
    loop := none, timeline_playhead := 0, input_video_format := none
    dynamic_range := none, stop_mode := none, timeline_in := 0
    timeline_out := 0, audio_input := none, audio_mapping := 0
    video_input := none, file_format := none, audio_codec := none
    timecode_input := none, timecode_output := none
    timecode_preference := none, timecode_preset := none
    audio_input_channels := 0, record_trigger := none, recordPrefix := none
    append_timestamp := false, genlock_input_resync := false
    timeline := Timeline.init }

/-- Hyperdeck._startup: the fixed ordered battery of requests and
notification enables sent once connection info arrives. -/
def startupCommands : List String :=
  ["device info", "configuration", "transport info", "playrange",
   "clips get", "play option",
   "notify: transport: true", "notify: display timecode: true",
   "notify: timeline position: true", "notify: playrange: true",
   "notify: slot: true", "notify: configuration: true"]

/-- Field loop of Hyperdeck._connection_info. -/
def connectionInfoFields (st : Hyperdeck) : List String → Option Hyperdeck
  | [] => some st
  | line :: rest =>
    match pyKV line with
    | none => none
    | some (prop, value) =>
      if prop = "protocol version" then
        connectionInfoFields { st with protocol_version := some value } rest
      else if prop = "model" then
        connectionInfoFields { st with model := some value } rest
      else connectionInfoFields st rest

/-- Hyperdeck._connection_info: update protocol version and model from the
body, then run the startup sequence. -/
def connectionInfo (st : Hyperdeck) (body : List String) :
    Option (Hyperdeck × List String) :=
  (connectionInfoFields st body).map (fun st2 => (st2, startupCommands))

/-- The slot-finding loop shared by Hyperdeck._slot_info and
Hyperdeck._disk_list: the value of the first slot id field, stopping
there; inner none means the loop finished with slot still Python None. -/
def findSlotId : List String → Option (Option String)
  | [] => some none
  | line :: rest =>
    match pyKV line with
    | none => none
    | some (prop, value) =>
      if prop = "slot id" then some (some value) else findSlotId rest

/-- Hyperdeck._recording_time_remaining: remaining_time becomes the sum of
recording_time over the slot dict values. -/
def recordingTimeRemaining (st : Hyperdeck) : Hyperdeck :=
  { st with
    remaining_time := st.slots.foldl (fun acc p => acc + p.2.recording_time) 0 }

/-- Hyperdeck._slot_info: find the slot id; skip entirely on the sentinel
value none; otherwise index the slot dict (KeyError when absent, also for
a Python None key), update that slot and recompute remaining time. -/
def slotInfo (st : Hyperdeck) (body : List String) :
    Option (Hyperdeck × List String) :=
  match findSlotId body with
  | none => none
  | some slotKey =>
    if slotKey = some "none" then some (st, [])
    else
      match slotKey with
      | none => none
      | some k =>
        match dget st.slots k with
        | none => none
        | some sl =>
          match Slot.slotInfo sl body with
          | none => none
          | some sl2 =>
            some (recordingTimeRemaining { st with slots := dset st.slots k sl2 }, [])

/-- Field loop of Hyperdeck._transport_info, accumulating sent commands
(the active slot branch issues clips get). -/
def transportInfoFields (st : Hyperdeck) (acc : List String) :
    List String → Option (Hyperdeck × List String)
  | [] => some (st, acc)
  | line :: rest =>
    match pyKV line with
    | none => none
    | some (prop, value) =>
      if prop = "status" then
        transportInfoFields { st with status := some value } acc rest
      else if prop = "speed" then
        match pyInt value with
        | none => none
        | some k => transportInfoFields { st with speed := k } acc rest
      else if prop = "slot id" then
        match pyInt value with
        | none => none
        | some k => transportInfoFields { st with slot_id := k } acc rest
      else if prop = "active slot" then
        if value ≠ "none" then
          match pyInt value with
          | none => none
          | some k =>
            transportInfoFields { st with active_slot := some k }
              (acc ++ ["clips get"]) rest
        else transportInfoFields { st with active_slot := none } acc rest
      else if prop = "clip id" then
        match pyInt value with
        | none => none
        | some k => transportInfoFields { st with clip_id := k } acc rest
      else if prop = "single clip" then
        transportInfoFields { st with single_clip := some (value = "true") } acc rest
      else if prop = "display timecode" then
        transportInfoFields { st with display_timecode := some value } acc rest
      else if prop = "timecode" then
        transportInfoFields { st with timecode := some value } acc rest
      else if prop = "video format" then
        transportInfoFields
          { st with video_format := some value, framerate := parse_framerate value }
          acc rest
      else if prop = "loop" then
        transportInfoFields { st with loop := some (value = "true") } acc rest
      else if prop = "timeline" then
        match pyInt value with
        | none => none
        | some k => transportInfoFields { st with timeline_playhead := k } acc rest
      else if prop = "input video format" then
        transportInfoFields { st with input_video_format := some value } acc rest
      else if prop = "dynamic range" then
        transportInfoFields { st with dynamic_range := some value } acc rest
      else transportInfoFields st acc rest

/-- Hyperdeck._transport_info. -/
def transportInfo (st : Hyperdeck) (body : List String) :
    Option (Hyperdeck × List String) :=
  transportInfoFields st [] body

/-- Hyperdeck._timeline_position. -/
def timelinePosition (st : Hyperdeck) : List String → Option (Hyperdeck × List String)
  | [] => some (st, [])
  | line :: rest =>
    match pyKV line with
    | none => none
    | some (prop, value) =>
      if prop = "timeline" then
        match pyInt value with
        | none => none
        | some k => timelinePosition { st with timeline_playhead := k } rest
      else timelinePosition st rest

/-- Hyperdeck._display_timecode. -/
def displayTimecode (st : Hyperdeck) : List String → Option (Hyperdeck × List String)
  | [] => some (st, [])
  | line :: rest =>
    match pyKV line with
    | none => none
    | some (prop, value) =>
      if prop = "display timecode" then
        displayTimecode { st with display_timecode := some value } rest
      else displayTimecode st rest

/-- Hyperdeck._playrange_info: int parses guarded by try/except ValueError
mapping a non-numeric bound to 0. -/
def playrangeInfo (st : Hyperdeck) : List String → Option (Hyperdeck × List String)
  | [] => some (st, [])
  | line :: rest =>
    match pyKV line with
    | none => none
    | some (prop, value) =>
      if prop = "timeline in" then
        playrangeInfo { st with timeline_in := (pyInt value).getD 0 } rest
      else if prop = "timeline out" then
        playrangeInfo { st with timeline_out := (pyInt value).getD 0 } rest
      else playrangeInfo st rest

/-- Hyperdeck._configuration. -/
def configurationInfo (st : Hyperdeck) : List String → Option (Hyperdeck × List String)
  | [] => some (st, [])
  | line :: rest =>
    match pyKV line with
    | none => none
    | some (prop, value) =>
      if prop = "audio input" then
        configurationInfo { st with audio_input := some value } rest
      else if prop = "audio mapping" then
        match pyInt value with
        | none => none
        | some k => configurationInfo { st with audio_mapping := k } rest
      else if prop = "video input" then
        configurationInfo { st with video_input := some value } rest
      else if prop = "file format" then
        configurationInfo { st with file_format := some value } rest
      else if prop = "audio codec" then
        configurationInfo { st with audio_codec := some value } rest
      else if prop = "timecode input" then
        configurationInfo { st with timecode_input := some value } rest
      else if prop = "timecode output" then
        configurationInfo { st with timecode_output := some value } rest
      else if prop = "timecode preference" then
        configurationInfo { st with timecode_preference := some value } rest
      else if prop = "audio input channels" then
        match pyInt value with
        | none => none
        | some k => configurationInfo { st with audio_input_channels := k } rest
      else if prop = "record trigger" then
        configurationInfo { st with record_trigger := some value } rest
      else if prop = "record prefix" then
        configurationInfo { st with recordPrefix := some value } rest
      else if prop = "append timestamp" then
        configurationInfo { st with append_timestamp := value = "true" } rest
      else if prop = "genlock input resync" then
        configurationInfo { st with genlock_input_resync := value = "true" } rest
      else configurationInfo st rest

/-- Field loop of Hyperdeck._device_info (scalar updates only). -/
def deviceInfoFields (st : Hyperdeck) : List String → Option Hyperdeck
  | [] => some st
  | line :: rest =>
    match pyKV line with
    | none => none
    | some (prop, value) =>
      if prop = "protocol version" then
        deviceInfoFields { st with protocol_version := some value } rest
      else if prop = "model" then
        deviceInfoFields { st with model := some value } rest
      else if prop = "unique id" then
        deviceInfoFields { st with unique_id := some value } rest
      else if prop = "slot count" then
        match pyInt value with
        | none => none
        | some k => deviceInfoFields { st with slot_count := k } rest
      else if prop = "software version" then
        deviceInfoFields { st with software_version := some value } rest
      else deviceInfoFields st rest

/-- The slot (re)creation loop of Hyperdeck._device_info: for each index
below slot_count, assign a fresh Slot under the key str(index + 1) and
send a slot info and a disk list request for it. -/
def deviceInfoLoop (m : List (String × Slot)) (i : Nat) :
    Nat → List (String × Slot) × List String
  | 0 => (m, [])
  | k+1 =>
    let key := pyStrNat (i + 1)
    let r := deviceInfoLoop (dset m key (Slot.init (Int.ofNat (i + 1)))) (i + 1) k
    (r.1, ("slot info: slot id: " ++ pyStrNat (i + 1)) ::
      ("disk list: slot id: " ++ pyStrNat (i + 1)) :: r.2)

/-- Hyperdeck._device_info: scalar field updates, then the slot recreation
loop over range(slot_count); a negative count iterates zero times. -/
def deviceInfo (st : Hyperdeck) (body : List String) :
    Option (Hyperdeck × List String) :=
  match deviceInfoFields st body with
  | none => none
  | some st2 =>
    let r := deviceInfoLoop st2.slots 0 st2.slot_count.toNat
    some ({ st2 with slots := r.1 }, r.2)

/-- Hyperdeck._clips_info: delegate to the timeline at the device
framerate. -/
def clipsInfo (st : Hyperdeck) (body : List String) :
    Option (Hyperdeck × List String) :=
  (Timeline.clipInfo st.timeline body st.framerate).map
    (fun tl => ({ st with timeline := tl }, []))

/-- Hyperdeck._disk_list: find the slot id (no sentinel check here), index
the dict, replace that slot clip list. -/
def diskListHandler (st : Hyperdeck) (body : List String) :
    Option (Hyperdeck × List String) :=
  match findSlotId body with
  | none => none
  | some slotKey =>
    match slotKey with
    | none => none
    | some k =>
      match dget st.slots k with
      | none => none
      | some sl =>
        match Slot.diskList sl body with
        | none => none
        | some sl2 => some ({ st with slots := dset st.slots k sl2 }, [])

/-- Hyperdeck._format: echo the first body line in a confirm command
(IndexError on an empty body). -/
def formatHandler (st : Hyperdeck) (body : List String) :
    Option (Hyperdeck × List String) :=
  match body with
  | [] => none
  | tokenLine :: _ => some (st, ["format: confirm: " ++ tokenLine])

/-- Hyperdeck._play_option. -/
def playOption (st : Hyperdeck) : List String → Option (Hyperdeck × List String)
  | [] => some (st, [])
  | line :: rest =>
    match pyKV line with
    | none => none
    | some (prop, value) =>
      if prop = "stop mode" then
        playOption { st with stop_mode := some value } rest
      else playOption st rest

/-- Hyperdeck._asynchronous_response_processor: token dispatch for the
500-599 range; an unrecognized token falls through untouched. -/
def asyncProcessor (st : Hyperdeck) (token : String) (body : List String) :
    Option (Hyperdeck × List String) :=
  if token = "connection info" then connectionInfo st body
  else if token = "slot info" then slotInfo st body
  else if token = "transport info" then transportInfo st body
  else if token = "timeline position" then timelinePosition st body
  else if token = "display timecode" then displayTimecode st body
  else if token = "playrange info" then playrangeInfo st body
  else if token = "configuration" then configurationInfo st body
  else some (st, [])

/-- Hyperdeck._success_response_processor: token dispatch for the 200-299
range; an unrecognized token falls through untouched. -/
def successProcessor (st : Hyperdeck) (token : String) (body : List String) :
    Option (Hyperdeck × List String) :=
  if token = "slot info" then slotInfo st body
  else if token = "device info" then deviceInfo st body
  else if token = "transport info" then transportInfo st body
  else if token = "playrange info" then playrangeInfo st body
  else if token = "configuration" then configurationInfo st body
  else if token = "clips info" then clipsInfo st body
  else if token = "disk list" then diskListHandler st body
  else if token = "format ready" then formatHandler st body
  else if token = "play option info" then playOption st body
  else some (st, [])

/-- Hyperdeck._get_status_of_message: strip trailing colons, split at the
first space; indexing failure or a non-integer code raises (none). -/
def getStatus (statusLine : String) : Option (Int × String) :=
  match splitFirstSpace (rstripSet [':'] statusLine.data) with
  | none => none
  | some (a, b) =>
    match pyIntChars a with
    | none => none
    | some code => some (code, String.mk b)

/-- Hyperdeck._decode_message after the terminator strip and line split:
first line is the status line, the rest the body; dispatch asynchronous
notifications for 500-599 and success responses for the half-open range
above 200 up to 299, ignore every other code. -/
def processMessageLines (st : Hyperdeck) : List String → Option (Hyperdeck × List String)
  | [] => none
  | statusLine :: body =>
    match getStatus statusLine with
    | none => none
    | some (code, token) =>
      if 500 ≤ code ∧ code ≤ 599 then asyncProcessor st token body
      else if 200 < code ∧ code ≤ 299 then successProcessor st token body
      else some (st, [])

/-! ## Spec-side helper definitions used in theorem statements -/

/-- The value of the last occurrence of a key among well-formed body
lines (the field loops apply assignments in order, so the last one
wins). -/
def lastFieldValue (key : String) : List String → Option String
  | [] => none
  | line :: rest =>
    match lastFieldValue key rest with
    | some v => some v
    | none =>
      match pyKV line with
      | some (p, v) => if p = key then some v else none
      | none => none

/-- The values carried by every active slot field of a body, in order. -/
def activeSlotValues (body : List String) : List String :=
  body.filterMap (fun line =>
    match pyKV line with
    | some (p, v) => if p = "active slot" then some v else none
    | none => none)

/-- The follow-up requests the device-info handler must emit for a slot
count of n: a slot info and a disk list request per slot id 1..n. -/
def deviceFollowupCommands (n : Nat) : List String :=
  (List.range n).flatMap (fun i =>
    [("slot info: slot id: " ++ pyStrNat (i + 1)),
     ("disk list: slot id: " ++ pyStrNat (i + 1))])

/-- Sum of recording_time over the slot dict values. -/
def slotRecordingSum (m : List (String × Slot)) : Int :=
  (m.map (fun p => p.2.recording_time)).sum

/-- Sum of duration_frames over a timeline clip list. -/
def clipFrameSum (cs : List TimelineClip) : Int :=
  (cs.map (fun c => c.duration_frames)).sum

/-- A Timecode whose component fields are in canonical mixed-radix ranges:
nonnegative two-digit hours, minutes and seconds below sixty, frames
below the framerate. -/
def Canonical (t : Timecode) : Prop :=
  0 ≤ t.hours ∧ t.hours ≤ 99 ∧ 0 ≤ t.minutes ∧ t.minutes < 60 ∧
    0 ≤ t.seconds ∧ t.seconds < 60 ∧ 0 ≤ t.frames ∧ t.frames < t.framerate

/-- The stored frame_count agrees with the component fields (true of every
constructed Timecode; stated as a hypothesis so theorems can quantify
over the record type). -/
def FrameCountOk (t : Timecode) : Prop :=
  t.frame_count = calcFrameCount t.hours t.minutes t.seconds t.frames t.framerate

/-- Well-formed key-value body line whose integer-bearing keys parse: the
line splits into exactly one key and one value, and keys that the
transport handler feeds to int() carry parseable values. -/
def TransportLineOk (line : String) : Prop :=
  ∃ p v, pyKV line = some (p, v) ∧
    ((p = "speed" ∨ p = "slot id" ∨ p = "clip id" ∨ p = "timeline") →
      (pyInt v).isSome) ∧
    (p = "active slot" → v = "none" ∨ (pyInt v).isSome)

/-- Well-formed body line for the device-info handler. -/
def DeviceLineOk (line : String) : Prop :=
  ∃ p v, pyKV line = some (p, v) ∧ (p = "slot count" → (pyInt v).isSome)

/-- Well-formed body line for the slot-info handler. -/
def SlotLineOk (line : String) : Prop :=
  ∃ p v, pyKV line = some (p, v) ∧ (p = "recording time" → (pyInt v).isSome)

/-- The notification tokens the asynchronous processor recognizes. -/
def asyncTokens : List String :=
  ["connection info", "slot info", "transport info", "timeline position",
   "display timecode", "playrange info", "configuration"]

/-- The response tokens the success processor recognizes. -/
def successTokens : List String :=
  ["slot info", "device info", "transport info", "playrange info",
   "configuration", "clips info", "disk list", "format ready",
   "play option info"]

/-! ## Lemmas: decimal rendering and parsing -/

theorem natDigitsAux_small (fuel n : Nat) (hn : n < 10) (hf : 0 < fuel) :
    natDigitsAux fuel n = [digitChar n] := by
  cases fuel with
  | zero => omega
  | succ k => simp [natDigitsAux, hn]

theorem natDigitsAux_len_ge1 (fuel : Nat) :
    ∀ n, n < fuel → 1 ≤ (natDigitsAux fuel n).length := by
  induction fuel with
  | zero => intro n h; omega
  | succ k ih =>
    intro n _
    by_cases hn : n < 10
    · simp [natDigitsAux, hn]
    · simp [natDigitsAux, hn]

theorem natDigitsAux_mem (fuel : Nat) :
    ∀ n c, c ∈ natDigitsAux fuel n → ∃ d, d < 10 ∧ c = digitChar d := by
  induction fuel with
  | zero => intro n c h; simp [natDigitsAux] at h
  | succ k ih =>
    intro n c h
    by_cases hn : n < 10
    · simp [natDigitsAux, hn] at h
      exact ⟨n, hn, h⟩
    · simp [natDigitsAux, hn] at h
      rcases h with h | h
      · exact ih _ _ h
      · exact ⟨n % 10, Nat.mod_lt _ (by omega), h⟩

theorem digitVal_digitChar (d : Nat) (h : d < 10) :
    digitVal (digitChar d) = some d := by
  interval_cases d <;> decide

theorem digitChar_ne_semi (d : Nat) (h : d < 10) : digitChar d ≠ ';' := by
  interval_cases d <;> decide

theorem digitChar_ne_minus (d : Nat) (h : d < 10) : digitChar d ≠ Char.ofNat 45 := by
  interval_cases d <;> decide

theorem digitChar_ne_plus (d : Nat) (h : d < 10) : digitChar d ≠ Char.ofNat 43 := by
  interval_cases d <;> decide

theorem parseDigitsAux_append (l l2 : List Char) : ∀ acc,
    parseDigitsAux acc (l ++ l2) =
      match parseDigitsAux acc l with
      | some k => parseDigitsAux k l2
      | none => none := by
  induction l with
  | nil => intro acc; simp [parseDigitsAux]
  | cons c cs ih =>
    intro acc
    simp only [List.cons_append, parseDigitsAux]
    cases digitVal c with
    | none => simp
    | some d => simpa using ih (acc * 10 + d)

theorem parse_natDigitsAux (fuel : Nat) :
    ∀ n, n < fuel → parseDigitsAux 0 (natDigitsAux fuel n) = some n := by
  induction fuel with
  | zero => intro n h; omega
  | succ k ih =>
    intro n hn
    by_cases h10 : n < 10
    · rw [natDigitsAux_small _ _ h10 (by omega)]
      simp [parseDigitsAux, digitVal_digitChar n h10]
    · have hrec : n / 10 < k := by omega
      simp only [natDigitsAux, h10, if_false]
      rw [parseDigitsAux_append]
      rw [ih _ hrec]
      simp [parseDigitsAux, digitVal_digitChar (n % 10) (Nat.mod_lt _ (by omega))]
      omega

theorem parse_natDigits (n : Nat) : parseDigitsAux 0 (natDigits n) = some n :=
  parse_natDigitsAux (n + 1) n (Nat.lt_succ_self n)

theorem natDigits_mem (n : Nat) (c : Char) (h : c ∈ natDigits n) :
    ∃ d, d < 10 ∧ c = digitChar d :=
  natDigitsAux_mem (n + 1) n c h

theorem natDigits_len1 (n : Nat) (h : n < 10) : (natDigits n).length = 1 := by
  rw [natDigits, natDigitsAux_small _ _ h (by omega)]
  rfl

theorem natDigits_len2 (n : Nat) (h1 : 10 ≤ n) (h2 : n ≤ 99) :
    (natDigits n).length = 2 := by
  rw [natDigits]
  have h10 : ¬ n < 10 := by omega
  simp only [natDigitsAux, h10, if_false]
  rw [natDigitsAux_small n (n / 10) (by omega) (by omega)]
  rfl

theorem natDigitsAux_len_ge2 (fuel : Nat) :
    ∀ n, n < fuel → 10 ≤ n → 2 ≤ (natDigitsAux fuel n).length := by
  induction fuel with
  | zero => intro n h; omega
  | succ k ih =>
    intro n hn h10
    have hlt : ¬ n < 10 := by omega
    simp only [natDigitsAux, hlt, if_false]
    have : 1 ≤ (natDigitsAux k (n / 10)).length :=
      natDigitsAux_len_ge1 k (n / 10) (by omega)
    simp only [List.length_append, List.length_cons, List.length_nil]
    omega

theorem natDigits_len_ge (n : Nat) (h : 100 ≤ n) :
    3 ≤ (natDigits n).length := by
  rw [natDigits]
  have h10 : ¬ n < 10 := by omega
  simp only [natDigitsAux, h10, if_false]
  have : 2 ≤ (natDigitsAux n (n / 10)).length :=
    natDigitsAux_len_ge2 n (n / 10) (by omega) (by omega)
  simp only [List.length_append, List.length_cons, List.length_nil]
  omega

theorem natDigits_len_ge1 (n : Nat) : 1 ≤ (natDigits n).length :=
  natDigitsAux_len_ge1 (n + 1) n (Nat.lt_succ_self n)

theorem intDigits_nonneg (i : Int) (hi : 0 ≤ i) :
    intDigits i = natDigits i.toNat := by
  simp [intDigits, Int.not_lt.mpr hi]

theorem pyIntChars_digits (k : Nat) :
    pyIntChars (natDigits k) = some (Int.ofNat k) := by
  have hlen := natDigits_len_ge1 k
  cases hnd : natDigits k with
  | nil => rw [hnd] at hlen; simp at hlen
  | cons c rest =>
    have hc : c ∈ natDigits k := by rw [hnd]; exact List.mem_cons_self c rest
    obtain ⟨d, hd, rfl⟩ := natDigits_mem k c hc
    simp only [pyIntChars, digitChar_ne_minus d hd, if_false,
      digitChar_ne_plus d hd]
    rw [← hnd, parse_natDigits]
    rfl

theorem pyIntChars_fmt02 (i : Int) (hi : 0 ≤ i) :
    pyIntChars (fmt02 i) = some i := by
  rw [fmt02, intDigits_nonneg i hi]
  by_cases hl : (natDigits i.toNat).length < 2
  · simp only [hl, if_true]
    have h48 : ¬ (Char.ofNat 48 = Char.ofNat 45) := by decide
    have h43 : ¬ (Char.ofNat 48 = Char.ofNat 43) := by decide
    simp only [pyIntChars, h48, if_false, h43]
    have : parseDigitsAux 0 (Char.ofNat 48 :: natDigits i.toNat) =
        parseDigitsAux 0 (natDigits i.toNat) := by
      have : digitVal (Char.ofNat 48) = some 0 := by decide
      simp [parseDigitsAux, this]
    rw [this, parse_natDigits]
    simp [Int.toNat_of_nonneg hi]
  · simp only [hl, if_false]
    rw [pyIntChars_digits]
    simp [Int.toNat_of_nonneg hi]

theorem fmt02_len2 (i : Int) (h0 : 0 ≤ i) (h99 : i ≤ 99) :
    (fmt02 i).length = 2 := by
  rw [fmt02, intDigits_nonneg i h0]
  by_cases h9 : i.toNat < 10
  · have hl1 : (natDigits i.toNat).length = 1 := natDigits_len1 _ h9
    simp [hl1]
  · have hl2 : (natDigits i.toNat).length = 2 := by
      apply natDigits_len2 _ (by omega) (by omega)
    simp [hl2]

theorem fmt02_len_ge2 (i : Int) : 2 ≤ (fmt02 i).length := by
  rw [fmt02]
  have h1 : 1 ≤ (intDigits i).length := by
    rw [intDigits]
    by_cases hi : i < 0
    · simp [hi]
    · simpa [hi] using natDigits_len_ge1 i.toNat
  by_cases hl : (intDigits i).length < 2
  · simp only [hl, if_true, List.length_cons]
    omega
  · simp only [hl, if_false]
    omega

theorem fmt02_len_ge3 (i : Int) (h : 100 ≤ i) : 3 ≤ (fmt02 i).length := by
  rw [fmt02, intDigits_nonneg i (by omega)]
  have h3 : 3 ≤ (natDigits i.toNat).length := natDigits_len_ge _ (by omega)
  have hl : ¬ (natDigits i.toNat).length < 2 := by omega
  simp only [hl, if_false]
  exact h3

theorem fmt02_mem (i : Int) (hi : 0 ≤ i) (c : Char) (h : c ∈ fmt02 i) :
    ∃ d, d < 10 ∧ c = digitChar d := by
  rw [fmt02, intDigits_nonneg i hi] at h
  by_cases hl : (natDigits i.toNat).length < 2
  · simp only [hl, if_true, List.mem_cons] at h
    rcases h with rfl | h
    · exact ⟨0, by omega, rfl⟩
    · exact natDigits_mem _ _ h
  · simp only [hl, if_false] at h
    exact natDigits_mem _ _ h

theorem fmt02_not_semi (i : Int) (hi : 0 ≤ i) : ¬ ';' ∈ fmt02 i := by
  intro h
  obtain ⟨d, hd, he⟩ := fmt02_mem i hi ';' h
  exact digitChar_ne_semi d hd he.symm

theorem pyStrNat_inj (a b : Nat) (h : pyStrNat a = pyStrNat b) : a = b := by
  have hd : natDigits a = natDigits b := by
    have := congrArg String.data h
    simpa [pyStrNat] using this
  have := parse_natDigits a
  rw [hd, parse_natDigits b] at this
  have h2 : b = a := by simpa using this
  omega

theorem take2_append (a b : List Char) (ha : a.length = 2) :
    (a ++ b).take 2 = a := by
  rw [List.take_append_eq_append_take]
  rw [List.take_of_length_le (by omega), ha]
  simp

theorem drop3_append (a : List Char) (c : Char) (b : List Char)
    (ha : a.length = 2) : (a ++ c :: b).drop 3 = b := by
  rw [List.drop_append_eq_append_drop]
  rw [List.drop_of_length_le (by omega), ha]
  simp

theorem mkTimecode_format (h m s f : Int) (dc : Bool) (fr : Int)
    (hh0 : 0 ≤ h) (hh9 : h ≤ 99) (hm0 : 0 ≤ m) (hm9 : m ≤ 99)
    (hs0 : 0 ≤ s) (hs9 : s ≤ 99) (hf0 : 0 ≤ f) (hf9 : f ≤ 99) :
    mkTimecode (format_timecode h m s f dc) fr =
      some ⟨format_timecode h m s f dc, fr, dc, h, m, s, f,
        calcFrameCount h m s f fr⟩ := by
  have l1 := fmt02_len2 h hh0 hh9
  have l2 := fmt02_len2 m hm0 hm9
  have l3 := fmt02_len2 s hs0 hs9
  have l4 := fmt02_len2 f hf0 hf9
  have hdata : (format_timecode h m s f dc).data =
      fmt02 h ++ ':' :: (fmt02 m ++ ':' :: (fmt02 s ++
        (if dc then ';' else ':') :: fmt02 f)) := by
    simp [format_timecode]
  have hlen : (format_timecode h m s f dc).data.length = 11 := by
    rw [hdata]
    simp only [List.length_append, List.length_cons, l1, l2, l3, l4]
  have htake : (format_timecode h m s f dc).data.take 2 = fmt02 h := by
    rw [hdata]; exact take2_append _ _ l1
  have hd3 : (format_timecode h m s f dc).data.drop 3 =
      fmt02 m ++ ':' :: (fmt02 s ++ (if dc then ';' else ':') :: fmt02 f) := by
    rw [hdata]; exact drop3_append _ _ _ l1
  have hd6 : (format_timecode h m s f dc).data.drop 6 =
      fmt02 s ++ (if dc then ';' else ':') :: fmt02 f := by
    rw [hdata]
    have : (6 : Nat) = 3 + 3 := rfl
    rw [this, ← List.drop_drop, drop3_append _ _ _ l1, drop3_append _ _ _ l2]
  have hd9 : (format_timecode h m s f dc).data.drop 9 = fmt02 f := by
    rw [hdata]
    have : (9 : Nat) = 3 + (3 + 3) := rfl
    rw [this, ← List.drop_drop, ← List.drop_drop, drop3_append _ _ _ l1,
      drop3_append _ _ _ l2, drop3_append _ _ _ l3]
  have hsemi : (format_timecode h m s f dc).data.contains ';' = dc := by
    rw [hdata]
    cases dc with
    | true =>
      simp [List.contains, List.mem_append]
    | false =>
      simp only [if_false, List.contains, List.elem_eq_mem, List.mem_append,
        List.mem_cons, decide_eq_false_iff_not]
      push_neg
      refine ⟨fmt02_not_semi h hh0, by decide, fmt02_not_semi m hm0, by decide,
        fmt02_not_semi s hs0, by decide, fmt02_not_semi f hf0⟩
  rw [mkTimecode]
  simp only [hlen, if_true, htake, hd3, hd6, hd9,
    take2_append _ _ l2, take2_append _ _ l3,
    pyIntChars_fmt02 h hh0, pyIntChars_fmt02 m hm0, pyIntChars_fmt02 s hs0,
    pyIntChars_fmt02 f hf0, hsemi]

/-! ## Lemmas: borrow loops and the carry cascade -/

theorem borrowF_spec (fuel : Nat) : ∀ (fr x y : Int), 1 ≤ fr →
    -(fuel : Int) ≤ x →
    ∃ x2 y2, borrowF fuel fr x y = some (x2, y2) ∧ 0 ≤ x2 ∧
      y2 * fr + x2 = y * fr + x ∧ y2 ≤ y ∧ (x < fr → x2 < fr) := by
  induction fuel with
  | zero =>
    intro fr x y hfr hx
    have hx0 : 0 ≤ x := by simpa using hx
    refine ⟨x, y, ?_, hx0, rfl, le_refl y, fun hlt => hlt⟩
    simp [borrowF, Int.not_lt.mpr hx0]
  | succ k ih =>
    intro fr x y hfr hx
    by_cases hneg : x < 0
    · have hrec : -(k : Int) ≤ x + fr := by
        push_cast at hx ⊢
        omega
      obtain ⟨x2, y2, heq, hx2, htot, hy2, hlt⟩ := ih fr (x + fr) (y - 1) hfr hrec
      refine ⟨x2, y2, ?_, hx2, ?_, by omega, fun _ => hlt (by omega)⟩
      · simp [borrowF, hneg, heq]
      · have hexp : (y - 1) * fr = y * fr - fr := by ring
        rw [htot, hexp]
        ring
    · refine ⟨x, y, ?_, by omega, rfl, le_refl y, fun hlt => hlt⟩
      simp [borrowF, hneg]

theorem borrow_run (fr x y : Int) (hfr : 1 ≤ fr) :
    ∃ x2 y2, borrowF x.natAbs fr x y = some (x2, y2) ∧ 0 ≤ x2 ∧
      y2 * fr + x2 = y * fr + x ∧ y2 ≤ y ∧ (x < fr → x2 < fr) := by
  apply borrowF_spec x.natAbs fr x y hfr
  omega

theorem normChain_spec (fr h m s f : Int) (hfr : 1 ≤ fr) (hf : 0 ≤ f)
    (hs : 0 ≤ s) (hm : 0 ≤ m) (hh : 0 ≤ h) :
    ∃ h1 m1 s1 f1, normChain fr h m s f = (h1, m1, s1, f1) ∧
      0 ≤ f1 ∧ f1 < fr ∧ 0 ≤ s1 ∧ s1 < 60 ∧ 0 ≤ m1 ∧ m1 < 60 ∧ 0 ≤ h1 ∧
      ((h1 * 60 + m1) * 60 + s1) * fr + f1 = ((h * 60 + m) * 60 + s) * fr + f := by
  have hfr0 : (0 : Int) ≤ fr := by omega
  have hfrne : fr ≠ 0 := by omega
  rw [normChain]
  simp only [Int.fdiv_eq_ediv _ hfr0, Int.fmod_eq_emod _ hfr0,
    Int.fdiv_eq_ediv _ (by omega : (0:Int) ≤ 60),
    Int.fmod_eq_emod _ (by omega : (0:Int) ≤ 60)]
  refine ⟨_, _, _, _, rfl, ?_, ?_, ?_, ?_, ?_, ?_, ?_, ?_⟩
  · exact Int.emod_nonneg f hfrne
  · exact Int.emod_lt_of_pos f (by omega)
  · exact Int.emod_nonneg _ (by omega)
  · exact Int.emod_lt_of_pos _ (by omega)
  · exact Int.emod_nonneg _ (by omega)
  · exact Int.emod_lt_of_pos _ (by omega)
  · have h1 : 0 ≤ f / fr := Int.ediv_nonneg hf hfr0
    have h2 : 0 ≤ (s + f / fr) / 60 := Int.ediv_nonneg (by omega) (by omega)
    have h3 : 0 ≤ (m + (s + f / fr) / 60) / 60 := Int.ediv_nonneg (by omega) (by omega)
    omega
  · have e1 := Int.ediv_add_emod f fr
    have e2 := Int.ediv_add_emod (s + f / fr) 60
    have e3 := Int.ediv_add_emod (m + (s + f / fr) / 60) 60
    nlinarith [e1, e2, e3]

theorem radix_unique (x1 x2 d1 d2 fr : Int) (hfr : 1 ≤ fr)
    (h1 : 0 ≤ d1) (h2 : d1 < fr) (h3 : 0 ≤ d2) (h4 : d2 < fr)
    (heq : x1 * fr + d1 = x2 * fr + d2) : x1 = x2 ∧ d1 = d2 := by
  have hd : (x1 - x2) * fr = d2 - d1 := by ring_nf; linarith
  rcases lt_trichotomy x1 x2 with hx | hx | hx
  · exfalso
    have hle : x1 - x2 ≤ -1 := by omega
    have := mul_le_mul_of_nonneg_right hle (by omega : (0:Int) ≤ fr)
    rw [hd] at this
    have : d2 - d1 ≤ -fr := by linarith
    omega
  · constructor
    · exact hx
    · rw [hx] at heq
      omega
  · exfalso
    have hle : 1 ≤ x1 - x2 := by omega
    have := mul_le_mul_of_nonneg_right hle (by omega : (0:Int) ≤ fr)
    rw [hd] at this
    have : fr ≤ d2 - d1 := by linarith
    omega

theorem mixedRadix_unique (fr a1 b1 c1 d1 a2 b2 c2 d2 : Int) (hfr : 1 ≤ fr)
    (hd1 : 0 ≤ d1) (hd1b : d1 < fr) (hc1 : 0 ≤ c1) (hc1b : c1 < 60)
    (hb1 : 0 ≤ b1) (hb1b : b1 < 60)
    (hd2 : 0 ≤ d2) (hd2b : d2 < fr) (hc2 : 0 ≤ c2) (hc2b : c2 < 60)
    (hb2 : 0 ≤ b2) (hb2b : b2 < 60)
    (heq : ((a1 * 60 + b1) * 60 + c1) * fr + d1 =
      ((a2 * 60 + b2) * 60 + c2) * fr + d2) :
    a1 = a2 ∧ b1 = b2 ∧ c1 = c2 ∧ d1 = d2 := by
  obtain ⟨hx, hd⟩ := radix_unique _ _ _ _ _ hfr hd1 hd1b hd2 hd2b heq
  refine ⟨?_, ?_, ?_, hd⟩ <;> omega

theorem normChain_id (fr h m s f : Int) (hfr : 1 ≤ fr)
    (hf0 : 0 ≤ f) (hfb : f < fr) (hs0 : 0 ≤ s) (hsb : s < 60)
    (hm0 : 0 ≤ m) (hmb : m < 60) :
    normChain fr h m s f = (h, m, s, f) := by
  rw [normChain]
  simp only [Int.fdiv_eq_ediv _ (by omega : (0:Int) ≤ fr),
    Int.fmod_eq_emod _ (by omega : (0:Int) ≤ fr),
    Int.fdiv_eq_ediv _ (by omega : (0:Int) ≤ 60),
    Int.fmod_eq_emod _ (by omega : (0:Int) ≤ 60)]
  rw [Int.ediv_eq_zero_of_lt hf0 hfb, Int.emod_eq_of_lt hf0 hfb]
  simp only [Int.add_zero]
  rw [Int.ediv_eq_zero_of_lt hs0 hsb, Int.emod_eq_of_lt hs0 hsb]
  simp only [Int.add_zero]
  rw [Int.ediv_eq_zero_of_lt hm0 hmb, Int.emod_eq_of_lt hm0 hmb]
  simp

theorem addCore_ok (fr : Int) (dc : Bool) (h m s f : Int) (hfr : 1 ≤ fr)
    (hfr100 : fr ≤ 100) (hf : 0 ≤ f) (hs : 0 ≤ s) (hm : 0 ≤ m) (hh : 0 ≤ h)
    (htot : ((h * 60 + m) * 60 + s) * fr + f < 360000 * fr) :
    ∃ h2 m2 s2 f2, addCore fr dc h m s f =
        some ⟨format_timecode h2 m2 s2 f2 dc, fr, dc, h2, m2, s2, f2,
          calcFrameCount h2 m2 s2 f2 fr⟩ ∧
      0 ≤ f2 ∧ f2 < fr ∧ 0 ≤ s2 ∧ s2 < 60 ∧ 0 ≤ m2 ∧ m2 < 60 ∧
      0 ≤ h2 ∧ h2 ≤ 99 ∧
      ((h2 * 60 + m2) * 60 + s2) * fr + f2 = ((h * 60 + m) * 60 + s) * fr + f := by
  obtain ⟨h1, m1, s1, f1, hchain, hf1, hf1b, hs1, hs1b, hm1, hm1b, hh1, htoteq⟩ :=
    normChain_spec fr h m s f hfr hf hs hm hh
  have hh99 : h1 ≤ 99 := by
    by_contra hcon
    have h100 : (100 : Int) ≤ h1 := by omega
    have hinner : (360000 : Int) ≤ (h1 * 60 + m1) * 60 + s1 := by omega
    have := mul_le_mul_of_nonneg_right hinner (by omega : (0:Int) ≤ fr)
    omega
  refine ⟨h1, m1, s1, f1, ?_, hf1, hf1b, hs1, hs1b, hm1, hm1b, hh1, hh99, htoteq⟩
  rw [addCore]
  simp only [if_neg (by omega : ¬ fr = 0), hchain]
  exact mkTimecode_format h1 m1 s1 f1 dc fr hh1 hh99 hm1 (by omega) hs1 (by omega)
    hf1 (by omega)

theorem subCore_borrows (fr : Int) (dc : Bool) (h m s f : Int) (hfr : 1 ≤ fr) :
    ∃ h1 m2 s2 f1, 0 ≤ f1 ∧ 0 ≤ s2 ∧ (s < 60 → s2 < 60) ∧ 0 ≤ m2 ∧
      (m < 60 → m2 < 60) ∧
      ((h1 * 60 + m2) * 60 + s2) * fr + f1 = ((h * 60 + m) * 60 + s) * fr + f ∧
      (f < fr → f1 < fr) ∧ h1 ≤ h ∧
      subCore fr dc h m s f =
        (if h1 < 0 then
          match normChain fr 0 0 0 0 with
          | (h3, m4, s4, f3) => mkTimecode (format_timecode h3 m4 s4 f3 dc) fr
        else
          match normChain fr h1 m2 s2 f1 with
          | (h3, m4, s4, f3) => mkTimecode (format_timecode h3 m4 s4 f3 dc) fr) := by
  obtain ⟨f1, s1, he1, hf1, ht1, hs1le, hflt⟩ := borrow_run fr f s hfr
  obtain ⟨s2, m1, he2, hs2, ht2, hm1le, hslt⟩ :=
    borrow_run 60 s1 m (by omega)
  obtain ⟨m2, h1, he3, hm2, ht3, hh1le, hmlt⟩ :=
    borrow_run 60 m1 h (by omega)
  have hs2b : s < 60 → s2 < 60 := fun hsb => hslt (by omega)
  have hm2b : m < 60 → m2 < 60 := fun hmb => hmlt (by omega)
  refine ⟨h1, m2, s2, f1, hf1, hs2, hs2b, hm2, hm2b, ?_, hflt, hh1le, ?_⟩
  · linear_combination 60 * fr * ht3 + fr * ht2 + ht1
  · rw [subCore, he1]
    dsimp only
    rw [he2]
    dsimp only
    rw [he3]
    dsimp only
    by_cases hcl : h1 < 0
    · simp only [hcl, if_true, if_neg (by omega : ¬ fr = 0)]
    · simp only [hcl, if_false, if_neg (by omega : ¬ fr = 0)]

theorem normChain_zero (fr : Int) : normChain fr 0 0 0 0 = (0, 0, 0, 0) := by
  rw [normChain]
  simp [Int.zero_fdiv, Int.zero_fmod]

theorem subCore_clamp (fr : Int) (dc : Bool) (h m s f : Int) (hfr : 1 ≤ fr)
    (htot : ((h * 60 + m) * 60 + s) * fr + f < 0) :
    subCore fr dc h m s f =
      some ⟨format_timecode 0 0 0 0 dc, fr, dc, 0, 0, 0, 0,
        calcFrameCount 0 0 0 0 fr⟩ := by
  obtain ⟨h1, m2, s2, f1, hf1, hs2, _, hm2, _, htoteq, _, _, heq⟩ :=
    subCore_borrows fr dc h m s f hfr
  have hneg : h1 < 0 := by
    by_contra hcon
    have hh1 : 0 ≤ h1 := by omega
    have hinner : (0 : Int) ≤ (h1 * 60 + m2) * 60 + s2 := by omega
    have := mul_nonneg hinner (by omega : (0:Int) ≤ fr)
    omega
  rw [heq]
  simp only [hneg, if_true, normChain_zero]
  exact mkTimecode_format 0 0 0 0 dc fr (by omega) (by omega) (by omega) (by omega)
    (by omega) (by omega) (by omega) (by omega)

theorem subCore_ok (fr : Int) (dc : Bool) (h m s f : Int) (hfr : 1 ≤ fr)
    (hfr100 : fr ≤ 100) (hfb : f < fr) (hs0 : 0 ≤ s) (hsb : s < 60)
    (hm0 : 0 ≤ m) (hmb : m < 60)
    (htot0 : 0 ≤ ((h * 60 + m) * 60 + s) * fr + f)
    (htot99 : ((h * 60 + m) * 60 + s) * fr + f < 360000 * fr) :
    ∃ h2 m2 s2 f2, subCore fr dc h m s f =
        some ⟨format_timecode h2 m2 s2 f2 dc, fr, dc, h2, m2, s2, f2,
          calcFrameCount h2 m2 s2 f2 fr⟩ ∧
      0 ≤ f2 ∧ f2 < fr ∧ 0 ≤ s2 ∧ s2 < 60 ∧ 0 ≤ m2 ∧ m2 < 60 ∧
      0 ≤ h2 ∧ h2 ≤ 99 ∧
      ((h2 * 60 + m2) * 60 + s2) * fr + f2 = ((h * 60 + m) * 60 + s) * fr + f := by
  obtain ⟨h1, m2, s2, f1, hf1, hs2, hs2c, hm2, hm2c, htoteq, hflt, _, heq⟩ :=
    subCore_borrows fr dc h m s f hfr
  have hf1b : f1 < fr := hflt hfb
  have hs2b : s2 < 60 := hs2c hsb
  have hm2b : m2 < 60 := hm2c hmb
  have hpos : ¬ h1 < 0 := by
    intro hneg
    have hinner : (h1 * 60 + m2) * 60 + s2 ≤ -1 := by omega
    have := mul_le_mul_of_nonneg_right hinner (by omega : (0:Int) ≤ fr)
    have hle : ((h1 * 60 + m2) * 60 + s2) * fr + f1 ≤ -1 := by linarith
    omega
  have hh99 : h1 ≤ 99 := by
    by_contra hcon
    have hinner : (360000 : Int) ≤ (h1 * 60 + m2) * 60 + s2 := by omega
    have := mul_le_mul_of_nonneg_right hinner (by omega : (0:Int) ≤ fr)
    omega
  refine ⟨h1, m2, s2, f1, ?_, hf1, hf1b, hs2, hs2b, hm2, hm2b, by omega, hh99, htoteq⟩
  rw [heq]
  simp only [hpos, if_false]
  rw [normChain_id fr h1 m2 s2 f1 hfr hf1 hf1b hs2 hs2b hm2 hm2b]
  exact mkTimecode_format h1 m2 s2 f1 dc fr (by omega) hh99 hm2 (by omega) hs2
    (by omega) hf1 (by omega)

theorem calc_eq (h m s f fr : Int) :
    calcFrameCount h m s f fr = ((h * 60 + m) * 60 + s) * fr + f := by
  rw [calcFrameCount]; ring

theorem mkTimecode_ok (s : String) (fr : Int) (o : Timecode)
    (h : mkTimecode s fr = some o) :
    o.framerate = fr ∧
      o.frame_count = calcFrameCount o.hours o.minutes o.seconds o.frames fr := by
  unfold mkTimecode at h
  dsimp only at h
  split at h
  · split at h
    · injection h with h
      subst h
      exact ⟨rfl, rfl⟩
    · exact absurd h (by simp)
  · exact absurd h (by simp)

theorem mkTimecode_none_of_len (s : String) (fr : Int)
    (h : s.data.length ≠ 11) : mkTimecode s fr = none := by
  unfold mkTimecode
  dsimp only
  rw [if_neg h]

theorem format_zero (dc : Bool) :
    format_timecode 0 0 0 0 dc =
      (if dc then "00:00:00;00" else "00:00:00:00") := by
  cases dc <;> decide

theorem mk_format_nonneg (h m s f : Int) (dc : Bool) (fr : Int)
    (hh : 0 ≤ h) (hm : 0 ≤ m) (hs : 0 ≤ s) (hf : 0 ≤ f) (v : Timecode)
    (hmk : mkTimecode (format_timecode h m s f dc) fr = some v) :
    0 ≤ v.hours ∧ 0 ≤ v.minutes ∧ 0 ≤ v.seconds ∧ 0 ≤ v.frames := by
  by_cases hbig : h ≤ 99 ∧ m ≤ 99 ∧ s ≤ 99 ∧ f ≤ 99
  · obtain ⟨h9, m9, s9, f9⟩ := hbig
    rw [mkTimecode_format h m s f dc fr hh h9 hm m9 hs s9 hf f9] at hmk
    injection hmk with hmk
    subst hmk
    exact ⟨hh, hm, hs, hf⟩
  · exfalso
    have hlen : 12 ≤ (format_timecode h m s f dc).data.length := by
      have hd : (format_timecode h m s f dc).data =
          fmt02 h ++ ':' :: (fmt02 m ++ ':' :: (fmt02 s ++
            (if dc then ';' else ':') :: fmt02 f)) := by
        simp [format_timecode]
      have g1 := fmt02_len_ge2 h
      have g2 := fmt02_len_ge2 m
      have g3 := fmt02_len_ge2 s
      have g4 := fmt02_len_ge2 f
      rw [hd]
      simp only [List.length_append, List.length_cons]
      push_neg at hbig
      rcases Classical.em (h ≤ 99) with hc | hc
      · rcases Classical.em (m ≤ 99) with mc | mc
        · rcases Classical.em (s ≤ 99) with sc | sc
          · have := fmt02_len_ge3 f (by omega)
            omega
          · have := fmt02_len_ge3 s (by omega)
            omega
        · have := fmt02_len_ge3 m (by omega)
          omega
      · have := fmt02_len_ge3 h (by omega)
        omega
    rw [mkTimecode_none_of_len _ fr (by omega)] at hmk
    exact Option.noConfusion hmk

theorem subCore_nonneg (fr : Int) (dc : Bool) (h m s f : Int) (hfr : 1 ≤ fr)
    (v : Timecode) (hv : subCore fr dc h m s f = some v) :
    0 ≤ v.hours ∧ 0 ≤ v.minutes ∧ 0 ≤ v.seconds ∧ 0 ≤ v.frames := by
  obtain ⟨h1, m2, s2, f1, hf1, hs2, _, hm2, _, _, _, _, heq⟩ :=
    subCore_borrows fr dc h m s f hfr
  rw [heq] at hv
  by_cases hcl : h1 < 0
  · rw [if_pos hcl, normChain_zero] at hv
    exact mk_format_nonneg 0 0 0 0 dc fr (by omega) (by omega) (by omega)
      (by omega) v hv
  · rw [if_neg hcl] at hv
    obtain ⟨h3, m4, s4, f3, hch, hf3, _, hs4, _, hm4, _, hh3, _⟩ :=
      normChain_spec fr h1 m2 s2 f1 hfr hf1 hs2 hm2 (by omega)
    rw [hch] at hv
    exact mk_format_nonneg h3 m4 s4 f3 dc fr hh3 hm4 hs4 hf3 v hv

theorem subTC_clamp (t o : Timecode) (hfr : 1 ≤ t.framerate)
    (hofr : o.framerate = t.framerate) (hft : FrameCountOk t)
    (hfo : FrameCountOk o) (hlt : t.frame_count < o.frame_count) :
    subCore t.framerate t.dropcode (t.hours - o.hours) (t.minutes - o.minutes)
      (t.seconds - o.seconds) (t.frames - o.frames) =
      some ⟨format_timecode 0 0 0 0 t.dropcode, t.framerate, t.dropcode,
        0, 0, 0, 0, calcFrameCount 0 0 0 0 t.framerate⟩ := by
  apply subCore_clamp _ _ _ _ _ _ hfr
  have ht : t.frame_count =
      ((t.hours * 60 + t.minutes) * 60 + t.seconds) * t.framerate + t.frames :=
    hft.trans (calc_eq _ _ _ _ _)
  have ho : o.frame_count =
      ((o.hours * 60 + o.minutes) * 60 + o.seconds) * t.framerate + o.frames := by
    rw [hfo, ← hofr]
    exact calc_eq _ _ _ _ _
  have hdiff : (((t.hours - o.hours) * 60 + (t.minutes - o.minutes)) * 60 +
        (t.seconds - o.seconds)) * t.framerate + (t.frames - o.frames) =
      t.frame_count - o.frame_count := by
    rw [ht, ho]
    ring
  omega

/-- C6: for a Timecode with framerate at least 1, subtracting a subtrahend
at the same framerate that represents more frames than the minuend (an
int frame count exceeding frame_count, a Timecode of equal framerate
with larger frame_count, or a string parsing to such a Timecode) clamps
the result to all-zero components rendered 00:00:00:00, with a semicolon
separator when the minuend drop-frame flag is set; and every subtraction
result at framerate at least 1 has nonnegative hours, minutes, seconds
and frames.  (The source claim holds only with the same-framerate and
positive-framerate restrictions; see the counterexample.) -/
theorem C6_sub_clamp :
    (∀ (t : Timecode) (n : Int), 1 ≤ t.framerate → FrameCountOk t →
      0 ≤ n → t.frame_count < n →
      ∃ v, t.sub (Operand.int n) = some v ∧ v.hours = 0 ∧ v.minutes = 0 ∧
        v.seconds = 0 ∧ v.frames = 0 ∧ v.dropcode = t.dropcode ∧
        v.timecode = (if t.dropcode then "00:00:00;00" else "00:00:00:00")) ∧
    (∀ (t o : Timecode), 1 ≤ t.framerate → o.framerate = t.framerate →
      FrameCountOk t → FrameCountOk o → t.frame_count < o.frame_count →
      ∃ v, t.sub (Operand.tc o) = some v ∧ v.hours = 0 ∧ v.minutes = 0 ∧
        v.seconds = 0 ∧ v.frames = 0 ∧ v.dropcode = t.dropcode ∧
        v.timecode = (if t.dropcode then "00:00:00;00" else "00:00:00:00")) ∧
    (∀ (t : Timecode) (str : String) (o : Timecode), 1 ≤ t.framerate →
      FrameCountOk t → mkTimecode str t.framerate = some o →
      t.frame_count < o.frame_count →
      ∃ v, t.sub (Operand.str str) = some v ∧ v.hours = 0 ∧ v.minutes = 0 ∧
        v.seconds = 0 ∧ v.frames = 0 ∧ v.dropcode = t.dropcode ∧
        v.timecode = (if t.dropcode then "00:00:00;00" else "00:00:00:00")) ∧
    (∀ (t : Timecode) (x : Operand) (v : Timecode), 1 ≤ t.framerate →
      t.sub x = some v →
      0 ≤ v.hours ∧ 0 ≤ v.minutes ∧ 0 ≤ v.seconds ∧ 0 ≤ v.frames) := by
  refine ⟨?_, ?_, ?_, ?_⟩
  · intro t n hfr hft hn hlt
    have ht : t.frame_count =
        ((t.hours * 60 + t.minutes) * 60 + t.seconds) * t.framerate + t.frames :=
      hft.trans (calc_eq _ _ _ _ _)
    have hclamp := subCore_clamp t.framerate t.dropcode t.hours t.minutes
      t.seconds (t.frames - n) hfr (by
        have : ((t.hours * 60 + t.minutes) * 60 + t.seconds) * t.framerate +
            (t.frames - n) = t.frame_count - n := by
          rw [ht]; ring
        omega)
    refine ⟨⟨format_timecode 0 0 0 0 t.dropcode, t.framerate, t.dropcode,
      0, 0, 0, 0, calcFrameCount 0 0 0 0 t.framerate⟩, ?_, rfl, rfl, rfl, rfl,
      rfl, format_zero t.dropcode⟩
    show subCore t.framerate t.dropcode t.hours t.minutes t.seconds
      (t.frames - n) = _
    exact hclamp
  · intro t o hfr hofr hft hfo hlt
    have hclamp := subTC_clamp t o hfr hofr hft hfo hlt
    refine ⟨⟨format_timecode 0 0 0 0 t.dropcode, t.framerate, t.dropcode,
      0, 0, 0, 0, calcFrameCount 0 0 0 0 t.framerate⟩, ?_, rfl, rfl, rfl, rfl,
      rfl, format_zero t.dropcode⟩
    show subCore t.framerate t.dropcode (t.hours - o.hours)
      (t.minutes - o.minutes) (t.seconds - o.seconds) (t.frames - o.frames) = _
    exact hclamp
  · intro t str o hfr hft hmk hlt
    obtain ⟨hofr, hfo⟩ := mkTimecode_ok str t.framerate o hmk
    have hfo2 : FrameCountOk o := by
      rw [FrameCountOk, hofr]
      exact hfo
    have hclamp := subTC_clamp t o hfr hofr hft hfo2 hlt
    refine ⟨⟨format_timecode 0 0 0 0 t.dropcode, t.framerate, t.dropcode,
      0, 0, 0, 0, calcFrameCount 0 0 0 0 t.framerate⟩, ?_, rfl, rfl, rfl, rfl,
      rfl, format_zero t.dropcode⟩
    show (mkTimecode str t.framerate).bind _ = _
    rw [hmk]
    exact hclamp
  · intro t x v hfr hv
    cases x with
    | int n =>
      exact subCore_nonneg t.framerate t.dropcode t.hours t.minutes t.seconds
        (t.frames - n) hfr v hv
    | tc o =>
      exact subCore_nonneg t.framerate t.dropcode (t.hours - o.hours)
        (t.minutes - o.minutes) (t.seconds - o.seconds) (t.frames - o.frames)
        hfr v hv
    | str str =>
      have hv2 : (mkTimecode str t.framerate).bind (fun o =>
          subCore t.framerate t.dropcode (t.hours - o.hours)
            (t.minutes - o.minutes) (t.seconds - o.seconds)
            (t.frames - o.frames)) = some v := hv
      cases hmk : mkTimecode str t.framerate with
      | none => rw [hmk] at hv2; exact absurd hv2 (by simp)
      | some o =>
        rw [hmk] at hv2
        simp only [Option.some_bind] at hv2
        exact subCore_nonneg t.framerate t.dropcode (t.hours - o.hours)
          (t.minutes - o.minutes) (t.seconds - o.seconds) (t.frames - o.frames)
          hfr v hv2

/-- C6 counterexample: as stated over every Timecode and subtrahend the
claim fails.  A subtrahend Timecode at a different framerate can
represent more frames than the minuend without clamping (one second at
60 fps is 60 frames, more than two seconds at 24 fps = 48, yet the
difference is 00:00:01:00); and at a negative framerate a subtraction
result can carry negative components. -/
theorem C6_counterexample :
    ((tcOf "00:00:01:00" 60).frame_count = 60 ∧
      (tcOf "00:00:02:00" 24).frame_count = 48 ∧
      Option.map (fun v => (v.hours, v.minutes, v.seconds, v.frames))
        ((tcOf "00:00:02:00" 24).sub (Operand.tc (tcOf "00:00:01:00" 60))) =
        some (0, 0, 1, 0)) ∧
    Option.map (fun v => (v.hours, v.frames))
      ((tcOf "00:00:00:03" (-5)).sub (Operand.int 0)) = some (-1, -2) := by
  exact ⟨⟨by decide, by decide, by decide⟩, by decide⟩

/-- C6 witness: the clamp theorem applied to a concrete drop-frame
timecode and an oversubtracting frame count. -/
theorem C6_witness :
    (1 ≤ (tcOf "00:00:10;00" 30).framerate ∧
      FrameCountOk (tcOf "00:00:10;00" 30) ∧ (0 : Int) ≤ 1000 ∧
      (tcOf "00:00:10;00" 30).frame_count < 1000) ∧
    (∃ v, (tcOf "00:00:10;00" 30).sub (Operand.int 1000) = some v ∧
      v.hours = 0 ∧ v.minutes = 0 ∧ v.seconds = 0 ∧ v.frames = 0 ∧
      v.dropcode = (tcOf "00:00:10;00" 30).dropcode ∧
      v.timecode = (if (tcOf "00:00:10;00" 30).dropcode then "00:00:00;00"
        else "00:00:00:00")) :=
  ⟨⟨by decide, by unfold FrameCountOk; decide, by decide, by decide⟩,
    C6_sub_clamp.1 (tcOf "00:00:10;00" 30) 1000 (by decide)
      (by unfold FrameCountOk; decide) (by decide) (by decide)⟩

/-- C7: for a Timecode with canonical components, framerate between 1 and
100, a nonnegative frame offset n, and no overflow past hour 99, adding
n frames and then subtracting n frames returns to exactly the original
hours, minutes, seconds, frames, drop-frame flag and framerate.  (The
unrestricted claim fails: see the counterexample for a non-canonical
start value, a framerate above 100, and an hour overflow, each of which
makes the round trip diverge from the original.) -/
theorem C7_add_sub_roundtrip (t : Timecode) (n : Int)
    (hfr : 1 ≤ t.framerate) (hfr100 : t.framerate ≤ 100) (hn : 0 ≤ n)
    (hcan : Canonical t) (hfc : FrameCountOk t)
    (hov : t.frame_count + n < 360000 * t.framerate) :
    ∃ u v, t.add (Operand.int n) = some u ∧ u.sub (Operand.int n) = some v ∧
      v.hours = t.hours ∧ v.minutes = t.minutes ∧ v.seconds = t.seconds ∧
      v.frames = t.frames ∧ v.dropcode = t.dropcode ∧
      v.framerate = t.framerate := by
  obtain ⟨hh0, hh9, hm0, hmb, hs0, hsb, hf0, hfb⟩ := hcan
  have ht : t.frame_count =
      ((t.hours * 60 + t.minutes) * 60 + t.seconds) * t.framerate + t.frames :=
    hfc.trans (calc_eq _ _ _ _ _)
  have htfc0 : 0 ≤ t.frame_count := by
    have hinner : (0 : Int) ≤ (t.hours * 60 + t.minutes) * 60 + t.seconds := by
      omega
    have := mul_nonneg hinner (by omega : (0:Int) ≤ t.framerate)
    omega
  have haddtot : ((t.hours * 60 + t.minutes) * 60 + t.seconds) * t.framerate +
      (t.frames + n) = t.frame_count + n := by
    rw [ht]; ring
  obtain ⟨h2, m2, s2, f2, haddeq, hf20, hf2b, hs20, hs2b, hm20, hm2b, hh20,
      hh29, htot2⟩ :=
    addCore_ok t.framerate t.dropcode t.hours t.minutes t.seconds
      (t.frames + n) hfr hfr100 (by omega) hs0 hm0 hh0 (by omega)
  have hadd : t.add (Operand.int n) =
      some ⟨format_timecode h2 m2 s2 f2 t.dropcode, t.framerate, t.dropcode,
        h2, m2, s2, f2, calcFrameCount h2 m2 s2 f2 t.framerate⟩ := haddeq
  have hsubtot0 : 0 ≤ ((h2 * 60 + m2) * 60 + s2) * t.framerate + (f2 - n) := by
    have e : ((h2 * 60 + m2) * 60 + s2) * t.framerate + (f2 - n) =
        (((h2 * 60 + m2) * 60 + s2) * t.framerate + f2) - n := by ring
    omega
  have hsubtot99 : ((h2 * 60 + m2) * 60 + s2) * t.framerate + (f2 - n) <
      360000 * t.framerate := by
    have e : ((h2 * 60 + m2) * 60 + s2) * t.framerate + (f2 - n) =
        (((h2 * 60 + m2) * 60 + s2) * t.framerate + f2) - n := by ring
    omega
  obtain ⟨h3, m3, s3, f3, hsubeq, hf30, hf3b, hs30, hs3b, hm30, hm3b, hh30,
      hh39, htot3⟩ :=
    subCore_ok t.framerate t.dropcode h2 m2 s2 (f2 - n) hfr hfr100
      (by omega) hs20 hs2b hm20 hm2b hsubtot0 hsubtot99
  have hveq : ((h3 * 60 + m3) * 60 + s3) * t.framerate + f3 =
      ((t.hours * 60 + t.minutes) * 60 + t.seconds) * t.framerate + t.frames := by
    have e : ((h2 * 60 + m2) * 60 + s2) * t.framerate + (f2 - n) =
        (((h2 * 60 + m2) * 60 + s2) * t.framerate + f2) - n := by ring
    omega
  obtain ⟨e1, e2, e3, e4⟩ := mixedRadix_unique t.framerate h3 m3 s3 f3
    t.hours t.minutes t.seconds t.frames hfr hf30 hf3b hs30 hs3b hm30 hm3b
    hf0 hfb hs0 hsb hm0 hmb hveq
  exact ⟨⟨format_timecode h2 m2 s2 f2 t.dropcode, t.framerate, t.dropcode,
      h2, m2, s2, f2, calcFrameCount h2 m2 s2 f2 t.framerate⟩,
    ⟨format_timecode h3 m3 s3 f3 t.dropcode, t.framerate, t.dropcode,
      h3, m3, s3, f3, calcFrameCount h3 m3 s3 f3 t.framerate⟩,
    hadd, hsubeq, e1, e2, e3, e4, rfl, rfl⟩

/-- C7 counterexample: the unrestricted claim fails.  A constructible but
non-normalized timecode (frames 50 at framerate 24) is changed by adding
then subtracting zero frames; at framerate 1000 the intermediate render
is not 11 characters and addition raises; adding past hour 99 raises. -/
theorem C7_counterexample :
    (Option.map (fun v => (v.hours, v.minutes, v.seconds, v.frames))
        (((tcOf "00:00:00:50" 24).add (Operand.int 0)).bind
          (fun u => u.sub (Operand.int 0))) = some (0, 0, 2, 2) ∧
      (tcOf "00:00:00:50" 24).seconds = 0 ∧
      (tcOf "00:00:00:50" 24).frames = 50) ∧
    (tcOf "00:00:00:00" 1000).add (Operand.int 500) = none ∧
    (tcOf "99:59:59:00" 24).add (Operand.int 24) = none := by
  exact ⟨⟨by decide, by decide, by decide⟩, by decide, by decide⟩

/-- C7 witness: the round trip at a concrete canonical timecode. -/
theorem C7_witness :
    (1 ≤ (tcOf "01:02:03:04" 25).framerate ∧
      (tcOf "01:02:03:04" 25).framerate ≤ 100 ∧ (0 : Int) ≤ 1234 ∧
      Canonical (tcOf "01:02:03:04" 25) ∧ FrameCountOk (tcOf "01:02:03:04" 25) ∧
      (tcOf "01:02:03:04" 25).frame_count + 1234 <
        360000 * (tcOf "01:02:03:04" 25).framerate) ∧
    (∃ u v, (tcOf "01:02:03:04" 25).add (Operand.int 1234) = some u ∧
      u.sub (Operand.int 1234) = some v ∧
      v.hours = (tcOf "01:02:03:04" 25).hours ∧
      v.minutes = (tcOf "01:02:03:04" 25).minutes ∧
      v.seconds = (tcOf "01:02:03:04" 25).seconds ∧
      v.frames = (tcOf "01:02:03:04" 25).frames ∧
      v.dropcode = (tcOf "01:02:03:04" 25).dropcode ∧
      v.framerate = (tcOf "01:02:03:04" 25).framerate) :=
  ⟨⟨by decide, by decide, by decide, by unfold Canonical; decide,
    by unfold FrameCountOk; decide, by decide⟩,
    C7_add_sub_roundtrip (tcOf "01:02:03:04" 25) 1234 (by decide) (by decide)
      (by decide) (by unfold Canonical; decide) (by unfold FrameCountOk; decide)
      (by decide)⟩

/-- C8: for a Timecode with canonical components, framerate between 1 and
100 and seconds at most 58, adding framerate many frames yields a result
whose seconds field is exactly one greater and whose frames field is
unchanged (so it is 0 only when the original frames field was 0; the
claim that frames always wrap to 0 fails, see the counterexample). -/
theorem C8_add_framerate (t : Timecode) (hfr : 1 ≤ t.framerate)
    (hfr100 : t.framerate ≤ 100) (hcan : Canonical t) (hs58 : t.seconds ≤ 58) :
    ∃ u, t.add (Operand.int t.framerate) = some u ∧
      u.seconds = t.seconds + 1 ∧ u.frames = t.frames := by
  obtain ⟨hh0, hh9, hm0, hmb, hs0, hsb, hf0, hfb⟩ := hcan
  have htot : ((t.hours * 60 + t.minutes) * 60 + t.seconds) * t.framerate +
      (t.frames + t.framerate) < 360000 * t.framerate := by
    have hinner : (t.hours * 60 + t.minutes) * 60 + t.seconds ≤ 359998 := by
      omega
    have := mul_le_mul_of_nonneg_right hinner (by omega : (0:Int) ≤ t.framerate)
    have h2 : (359998 : Int) * t.framerate + 2 * t.framerate =
        360000 * t.framerate := by ring
    omega
  obtain ⟨h2, m2, s2, f2, haddeq, hf20, hf2b, hs20, hs2b, hm20, hm2b, hh20,
      hh29, htot2⟩ :=
    addCore_ok t.framerate t.dropcode t.hours t.minutes t.seconds
      (t.frames + t.framerate) hfr hfr100 (by omega) hs0 hm0 hh0 htot
  have hveq : ((h2 * 60 + m2) * 60 + s2) * t.framerate + f2 =
      ((t.hours * 60 + t.minutes) * 60 + (t.seconds + 1)) * t.framerate +
        t.frames := by
    have e : ((t.hours * 60 + t.minutes) * 60 + (t.seconds + 1)) * t.framerate +
        t.frames = ((t.hours * 60 + t.minutes) * 60 + t.seconds) * t.framerate +
          (t.frames + t.framerate) := by ring
    omega
  obtain ⟨e1, e2, e3, e4⟩ := mixedRadix_unique t.framerate h2 m2 s2 f2
    t.hours t.minutes (t.seconds + 1) t.frames hfr hf20 hf2b hs20 hs2b hm20
    hm2b hf0 hfb (by omega) (by omega) hm0 hmb hveq
  exact ⟨⟨format_timecode h2 m2 s2 f2 t.dropcode, t.framerate, t.dropcode,
      h2, m2, s2, f2, calcFrameCount h2 m2 s2 f2 t.framerate⟩,
    haddeq, e3, e4⟩

/-- C8 counterexample: adding framerate many frames does not wrap frames
to 0 (frames 50 at 24 fps stays at frames 2 only after three carries and
stays nonzero), and seconds do not increment by one when 59 wraps: for
00:00:59:50 at 24 fps, adding 24 yields seconds 2 and frames 2. -/
theorem C8_counterexample :
    Option.map (fun u => (u.seconds, u.frames))
      ((tcOf "00:00:59:50" 24).add (Operand.int 24)) = some (2, 2) ∧
    (tcOf "00:00:59:50" 24).seconds = 59 ∧
    (tcOf "00:00:59:50" 24).frames = 50 := by
  exact ⟨by decide, by decide, by decide⟩

/-- C8 witness: adding one second of frames to a concrete timecode. -/
theorem C8_witness :
    (1 ≤ (tcOf "00:00:10:07" 30).framerate ∧
      (tcOf "00:00:10:07" 30).framerate ≤ 100 ∧
      Canonical (tcOf "00:00:10:07" 30) ∧
      (tcOf "00:00:10:07" 30).seconds ≤ 58) ∧
    (∃ u, (tcOf "00:00:10:07" 30).add
        (Operand.int (tcOf "00:00:10:07" 30).framerate) = some u ∧
      u.seconds = (tcOf "00:00:10:07" 30).seconds + 1 ∧
      u.frames = (tcOf "00:00:10:07" 30).frames) :=
  ⟨⟨by decide, by decide, by unfold Canonical; decide, by decide⟩,
    C8_add_framerate (tcOf "00:00:10:07" 30) (by decide) (by decide)
      (by unfold Canonical; decide) (by decide)⟩

/-! ## Claim theorems on the router and handlers -/

/-- C10: a video format string containing none of the eight framerate
substrings parses to Python None, and a slot-info body reporting such a
video format stores None as the slot framerate. -/
theorem C10_parse_framerate_none :
    (∀ vf : String, pyIn "50" vf = false → pyIn "5994" vf = false →
      pyIn "60" vf = false → pyIn "23976" vf = false →
      pyIn "24" vf = false → pyIn "25" vf = false →
      pyIn "2997" vf = false → pyIn "30" vf = false →
      parse_framerate vf = none) ∧
    (∀ (sl : Slot) (value : String),
      pyKV ("video format: " ++ value) = some ("video format", value) →
      pyIn "50" value = false → pyIn "5994" value = false →
      pyIn "60" value = false → pyIn "23976" value = false →
      pyIn "24" value = false → pyIn "25" value = false →
      pyIn "2997" value = false → pyIn "30" value = false →
      Slot.slotInfo sl ["video format: " ++ value] =
        some { sl with video_format := some value, framerate := none }) := by
  have main : ∀ vf : String, pyIn "50" vf = false → pyIn "5994" vf = false →
      pyIn "60" vf = false → pyIn "23976" vf = false →
      pyIn "24" vf = false → pyIn "25" vf = false →
      pyIn "2997" vf = false → pyIn "30" vf = false →
      parse_framerate vf = none := by
    intro vf h1 h2 h3 h4 h5 h6 h7 h8
    simp [parse_framerate, h1, h2, h3, h4, h5, h6, h7, h8]
  refine ⟨main, ?_⟩
  intro sl value hkv h1 h2 h3 h4 h5 h6 h7 h8
  have hp : parse_framerate value = none := main value h1 h2 h3 h4 h5 h6 h7 h8
  rw [Slot.slotInfo, hkv]
  simp only []
  norm_num
  rw [hp]
  rfl

/-- C10 witness: the theorem applied at the video format NTSC. -/
theorem C10_witness :
    (pyIn "50" "NTSC" = false ∧ pyIn "5994" "NTSC" = false ∧
      pyIn "60" "NTSC" = false ∧ pyIn "23976" "NTSC" = false ∧
      pyIn "24" "NTSC" = false ∧ pyIn "25" "NTSC" = false ∧
      pyIn "2997" "NTSC" = false ∧ pyIn "30" "NTSC" = false) ∧
    parse_framerate "NTSC" = none ∧
    Slot.slotInfo (Slot.init 1) ["video format: NTSC"] =
      some { Slot.init 1 with video_format := some "NTSC", framerate := none } :=
  ⟨⟨by decide, by decide, by decide, by decide, by decide, by decide,
    by decide, by decide⟩,
    C10_parse_framerate_none.1 "NTSC" (by decide) (by decide) (by decide)
      (by decide) (by decide) (by decide) (by decide) (by decide),
    C10_parse_framerate_none.2 (Slot.init 1) "NTSC" (by decide) (by decide)
      (by decide) (by decide) (by decide) (by decide) (by decide) (by decide)
      (by decide)⟩

/-- C9: a framed multi-line unit whose status code is below 200 or between
300 and 499, or whose token is not recognized by the processor for its
code range, leaves the Hyperdeck state untouched, emits no command and
raises nothing (the router simply falls through). -/
theorem C9_ignored_units (st : Hyperdeck) (statusLine : String)
    (body : List String) (code : Int) (token : String)
    (hstat : getStatus statusLine = some (code, token))
    (hrange : code < 200 ∨ (300 ≤ code ∧ code ≤ 499) ∨
      (500 ≤ code ∧ code ≤ 599 ∧ ¬ token ∈ asyncTokens) ∨
      (200 < code ∧ code ≤ 299 ∧ ¬ token ∈ successTokens)) :
    processMessageLines st (statusLine :: body) = some (st, []) := by
  rw [processMessageLines, hstat]
  rcases hrange with hr | hr | hr | hr
  · have c1 : ¬ (500 ≤ code ∧ code ≤ 599) := by omega
    have c2 : ¬ (200 < code ∧ code ≤ 299) := by omega
    simp [c1, c2]
  · have c1 : ¬ (500 ≤ code ∧ code ≤ 599) := by omega
    have c2 : ¬ (200 < code ∧ code ≤ 299) := by omega
    simp [c1, c2]
  · obtain ⟨hc1, hc2, hmem⟩ := hr
    simp only [asyncTokens, List.mem_cons, List.not_mem_nil, or_false,
      not_or] at hmem
    obtain ⟨n1, n2, n3, n4, n5, n6, n7⟩ := hmem
    have c1 : (500 ≤ code ∧ code ≤ 599) := ⟨hc1, hc2⟩
    simp [c1, asyncProcessor, n1, n2, n3, n4, n5, n6, n7]
  · obtain ⟨hc1, hc2, hmem⟩ := hr
    simp only [successTokens, List.mem_cons, List.not_mem_nil, or_false,
      not_or] at hmem
    obtain ⟨n1, n2, n3, n4, n5, n6, n7, n8, n9⟩ := hmem
    have c1 : ¬ (500 ≤ code ∧ code ≤ 599) := by omega
    have c2 : (200 < code ∧ code ≤ 299) := ⟨hc1, hc2⟩
    simp [c1, c2, successProcessor, n1, n2, n3, n4, n5, n6, n7, n8, n9]

/-- C9 witness: a failure response and an unrecognized success token both
leave the initial state untouched with no output. -/
theorem C9_witness :
    (getStatus "108 internal error" = some (108, "internal error") ∧
      getStatus "205 new thing:" = some (205, "new thing")) ∧
    processMessageLines initState ["108 internal error", "asleep: true"] =
      some (initState, []) ∧
    processMessageLines initState ["205 new thing:", "x: 1"] =
      some (initState, []) :=
  ⟨⟨by decide, by decide⟩,
    C9_ignored_units initState "108 internal error" ["asleep: true"] 108
      "internal error" (by decide) (Or.inl (by decide)),
    C9_ignored_units initState "205 new thing:" ["x: 1"] 205 "new thing"
      (by decide) (Or.inr (Or.inr (Or.inr ⟨by decide, by decide, by decide⟩)))⟩

theorem connFields_spec : ∀ (body : List String) (st : Hyperdeck),
    (∀ line ∈ body, ∃ p v, pyKV line = some (p, v)) →
    ∃ st2, connectionInfoFields st body = some st2 ∧
      st2.protocol_version =
        (match lastFieldValue "protocol version" body with
         | some v => some v
         | none => st.protocol_version) ∧
      st2.model =
        (match lastFieldValue "model" body with
         | some v => some v
         | none => st.model) ∧
      st2 = { st with
        protocol_version := st2.protocol_version
        model := st2.model } := by
  intro body
  induction body with
  | nil =>
    intro st _
    exact ⟨st, rfl, rfl, rfl, rfl⟩
  | cons line rest ih =>
    intro st hwf
    obtain ⟨p, v, hkv⟩ := hwf line (List.mem_cons_self line rest)
    have hwfrest : ∀ l ∈ rest, ∃ p v, pyKV l = some (p, v) :=
      fun l hl => hwf l (List.mem_cons_of_mem line hl)
    by_cases hp1 : p = "protocol version"
    · subst hp1
      obtain ⟨st2, heq, hpv, hm, hframe⟩ :=
        ih { st with protocol_version := some v } hwfrest
      refine ⟨st2, ?_, ?_, ?_, hframe⟩
      · simp only [connectionInfoFields, hkv]
        exact heq
      · simp only [lastFieldValue, hkv, if_pos rfl]
        cases hrest : lastFieldValue "protocol version" rest with
        | some w => rw [hrest] at hpv; exact hpv
        | none => rw [hrest] at hpv; exact hpv
      · simp only [lastFieldValue, hkv]
        have : ¬ ("protocol version" : String) = "model" := by decide
        simp only [if_neg this]
        cases hrest : lastFieldValue "model" rest with
        | some w => rw [hrest] at hm; exact hm
        | none => rw [hrest] at hm; exact hm
    · by_cases hp2 : p = "model"
      · subst hp2
        obtain ⟨st2, heq, hpv, hm, hframe⟩ :=
          ih { st with model := some v } hwfrest
        refine ⟨st2, ?_, ?_, ?_, hframe⟩
        · simp only [connectionInfoFields, hkv]
          have : ¬ ("model" : String) = "protocol version" := by decide
          simp only [if_neg this, if_pos rfl]
          exact heq
        · simp only [lastFieldValue, hkv]
          have : ¬ ("model" : String) = "protocol version" := by decide
          simp only [if_neg this]
          cases hrest : lastFieldValue "protocol version" rest with
          | some w => rw [hrest] at hpv; exact hpv
          | none => rw [hrest] at hpv; exact hpv
        · simp only [lastFieldValue, hkv, if_pos rfl]
          cases hrest : lastFieldValue "model" rest with
          | some w => rw [hrest] at hm; exact hm
          | none => rw [hrest] at hm; exact hm
      · obtain ⟨st2, heq, hpv, hm, hframe⟩ := ih st hwfrest
        refine ⟨st2, ?_, ?_, ?_, hframe⟩
        · simp only [connectionInfoFields, hkv]
          simp only [if_neg hp1, if_neg hp2]
          exact heq
        · simp only [lastFieldValue, hkv, if_neg hp1]
          cases hrest : lastFieldValue "protocol version" rest with
          | some w => rw [hrest] at hpv; exact hpv
          | none => rw [hrest] at hpv; exact hpv
        · simp only [lastFieldValue, hkv, if_neg hp2]
          cases hrest : lastFieldValue "model" rest with
          | some w => rw [hrest] at hm; exact hm
          | none => rw [hrest] at hm; exact hm

/-- C1: a multi-line unit with status line 500 connection info whose body
lines are well-formed key-value pairs updates protocol_version and model
from the body (last occurrence winning, all other fields untouched) and
emits exactly the twelve startup commands in order.  (The claim fails
for arbitrary bodies, whose malformed lines abort the handler before the
startup sequence: see the counterexample.) -/
theorem C1_connection_info_startup (st : Hyperdeck) (body : List String)
    (hwf : ∀ line ∈ body, ∃ p v, pyKV line = some (p, v)) :
    ∃ st2, processMessageLines st ("500 connection info:" :: body) =
        some (st2, startupCommands) ∧
      st2.protocol_version =
        (match lastFieldValue "protocol version" body with
         | some v => some v
         | none => st.protocol_version) ∧
      st2.model =
        (match lastFieldValue "model" body with
         | some v => some v
         | none => st.model) ∧
      st2 = { st with
        protocol_version := st2.protocol_version
        model := st2.model } := by
  obtain ⟨st2, heq, hpv, hm, hframe⟩ := connFields_spec body st hwf
  refine ⟨st2, ?_, hpv, hm, hframe⟩
  have hgs : getStatus "500 connection info:" = some (500, "connection info") := by
    decide
  simp only [processMessageLines, hgs]
  norm_num
  simp only [asyncProcessor]
  norm_num
  simp only [connectionInfo, heq]
  rfl

/-- C1 counterexample: with a body line whose value itself contains the
colon-space separator (legal per the body grammar, where only the first
separator counts), the three-way split aborts the handler with a
ValueError and no startup command is emitted. -/
theorem C1_counterexample :
    processMessageLines initState ["500 connection info:", "model: a: b"] =
      none := by
  decide

/-- C1 witness: the startup sequence fires on a concrete connection-info
unit. -/
theorem C1_witness :
    (∀ line ∈ ["protocol version: 1.12", "model: HyperDeck Studio Mini"],
      ∃ p v, pyKV line = some (p, v)) ∧
    (∃ st2, processMessageLines initState
        ("500 connection info:" ::
          ["protocol version: 1.12", "model: HyperDeck Studio Mini"]) =
        some (st2, startupCommands) ∧
      st2.protocol_version =
        (match lastFieldValue "protocol version"
            ["protocol version: 1.12", "model: HyperDeck Studio Mini"] with
         | some v => some v
         | none => initState.protocol_version) ∧
      st2.model =
        (match lastFieldValue "model"
            ["protocol version: 1.12", "model: HyperDeck Studio Mini"] with
         | some v => some v
         | none => initState.model) ∧
      st2 = { initState with
        protocol_version := st2.protocol_version
        model := st2.model }) := by
  have hwf : ∀ line ∈ ["protocol version: 1.12", "model: HyperDeck Studio Mini"],
      ∃ p v, pyKV line = some (p, v) := by
    intro line hl
    simp only [List.mem_cons, List.not_mem_nil, or_false] at hl
    rcases hl with rfl | rfl
    · exact ⟨"protocol version", "1.12", by decide⟩
    · exact ⟨"model", "HyperDeck Studio Mini", by decide⟩
  exact ⟨hwf, C1_connection_info_startup initState
    ["protocol version: 1.12", "model: HyperDeck Studio Mini"] hwf⟩

theorem transportFields_active : ∀ (body : List String) (st : Hyperdeck)
    (acc : List String), (∀ line ∈ body, TransportLineOk line) →
    (activeSlotValues body = [] →
      ∃ st2, transportInfoFields st acc body = some (st2, acc) ∧
        st2.active_slot = st.active_slot) ∧
    (∀ v k, activeSlotValues body = [v] → v ≠ "none" → pyInt v = some k →
      ∃ st2, transportInfoFields st acc body = some (st2, acc ++ ["clips get"]) ∧
        st2.active_slot = some k) ∧
    (activeSlotValues body = ["none"] →
      ∃ st2, transportInfoFields st acc body = some (st2, acc) ∧
        st2.active_slot = none) := by
  intro body
  induction body with
  | nil =>
    intro st acc _
    refine ⟨fun _ => ⟨st, rfl, rfl⟩, fun v k hv _ _ => ?_, fun hv => ?_⟩
    · exact absurd hv (by simp [activeSlotValues])
    · exact absurd hv (by simp [activeSlotValues])
  | cons line rest ih =>
    intro st acc hwf
    obtain ⟨p, v, hkv, hints, hactv⟩ := hwf line (List.mem_cons_self line rest)
    have hwfr : ∀ l ∈ rest, TransportLineOk l :=
      fun l hl => hwf l (List.mem_cons_of_mem line hl)
    by_cases hpa : p = "active slot"
    · subst hpa
      have hvals : activeSlotValues (line :: rest) =
          v :: activeSlotValues rest := by
        simp [activeSlotValues, List.filterMap_cons, hkv]
      refine ⟨fun hact => ?_, fun w k hw hwne hwk => ?_, fun hact => ?_⟩
      · rw [hvals] at hact
        exact absurd hact (by simp)
      · rw [hvals] at hw
        obtain ⟨hv1, hv2⟩ := List.cons.inj hw
        subst hv1
        simp only [transportInfoFields, hkv]
        have hne : ¬ ("active slot" : String) = "status" := by decide
        have hne2 : ¬ ("active slot" : String) = "speed" := by decide
        have hne3 : ¬ ("active slot" : String) = "slot id" := by decide
        simp only [if_neg hne, if_neg hne2, if_neg hne3, if_pos rfl,
          if_pos hwne, hwk]
        obtain ⟨i1, _, _⟩ := ih { st with active_slot := some k }
          (acc ++ ["clips get"]) hwfr
        obtain ⟨st2, heq, hact2⟩ := i1 hv2
        exact ⟨st2, heq, hact2⟩
      · rw [hvals] at hact
        obtain ⟨hv1, hv2⟩ := List.cons.inj hact
        subst hv1
        simp only [transportInfoFields, hkv]
        have hne : ¬ ("active slot" : String) = "status" := by decide
        have hne2 : ¬ ("active slot" : String) = "speed" := by decide
        have hne3 : ¬ ("active slot" : String) = "slot id" := by decide
        have hcond : ¬ (("none" : String) ≠ "none") := by simp
        simp only [if_neg hne, if_neg hne2, if_neg hne3, if_pos rfl,
          if_neg hcond]
        obtain ⟨i1, _, _⟩ := ih { st with active_slot := none } acc hwfr
        obtain ⟨st2, heq, hact2⟩ := i1 hv2
        exact ⟨st2, heq, hact2⟩
    · have hvals : activeSlotValues (line :: rest) = activeSlotValues rest := by
        simp [activeSlotValues, List.filterMap_cons, hkv, hpa]
      have tr : ∀ st' : Hyperdeck, st'.active_slot = st.active_slot →
          transportInfoFields st acc (line :: rest) =
            transportInfoFields st' acc rest →
          (activeSlotValues (line :: rest) = [] →
            ∃ st2, transportInfoFields st acc (line :: rest) = some (st2, acc) ∧
              st2.active_slot = st.active_slot) ∧
          (∀ v k, activeSlotValues (line :: rest) = [v] → v ≠ "none" →
            pyInt v = some k →
            ∃ st2, transportInfoFields st acc (line :: rest) =
              some (st2, acc ++ ["clips get"]) ∧ st2.active_slot = some k) ∧
          (activeSlotValues (line :: rest) = ["none"] →
            ∃ st2, transportInfoFields st acc (line :: rest) = some (st2, acc) ∧
              st2.active_slot = none) := by
        intro st' hs hred
        obtain ⟨i1, i2, i3⟩ := ih st' acc hwfr
        rw [hvals, hred]
        refine ⟨fun h => ?_, i2, i3⟩
        obtain ⟨st2, heq, hact2⟩ := i1 h
        exact ⟨st2, heq, hact2.trans hs⟩
      by_cases h1 : p = "status"
      · exact tr { st with status := some v } rfl
          (by simp only [transportInfoFields, hkv, if_pos h1])
      by_cases h2 : p = "speed"
      · obtain ⟨k, hk⟩ := Option.isSome_iff_exists.mp (hints (Or.inl h2))
        refine tr { st with speed := k } rfl ?_
        simp only [transportInfoFields, hkv, if_neg h1, if_pos h2, hk]
      by_cases h3 : p = "slot id"
      · obtain ⟨k, hk⟩ := Option.isSome_iff_exists.mp
          (hints (Or.inr (Or.inl h3)))
        refine tr { st with slot_id := k } rfl ?_
        simp only [transportInfoFields, hkv, if_neg h1, if_neg h2, if_pos h3, hk]
      by_cases h5 : p = "clip id"
      · obtain ⟨k, hk⟩ := Option.isSome_iff_exists.mp
          (hints (Or.inr (Or.inr (Or.inl h5))))
        refine tr { st with clip_id := k } rfl ?_
        simp only [transportInfoFields, hkv, if_neg h1, if_neg h2, if_neg h3,
          if_neg hpa, if_pos h5, hk]
      by_cases h6 : p = "single clip"
      · refine tr { st with single_clip := some (v = "true") } rfl ?_
        simp only [transportInfoFields, hkv, if_neg h1, if_neg h2, if_neg h3,
          if_neg hpa, if_neg h5, if_pos h6]
      by_cases h7 : p = "display timecode"
      · refine tr { st with display_timecode := some v } rfl ?_
        simp only [transportInfoFields, hkv, if_neg h1, if_neg h2, if_neg h3,
          if_neg hpa, if_neg h5, if_neg h6, if_pos h7]
      by_cases h8 : p = "timecode"
      · refine tr { st with timecode := some v } rfl ?_
        simp only [transportInfoFields, hkv, if_neg h1, if_neg h2, if_neg h3,
          if_neg hpa, if_neg h5, if_neg h6, if_neg h7, if_pos h8]
      by_cases h9 : p = "video format"
      · refine tr { st with video_format := some v, framerate := parse_framerate v } rfl ?_
        simp only [transportInfoFields, hkv, if_neg h1, if_neg h2, if_neg h3,
          if_neg hpa, if_neg h5, if_neg h6, if_neg h7, if_neg h8, if_pos h9]
      by_cases h10 : p = "loop"
      · refine tr { st with loop := some (v = "true") } rfl ?_
        simp only [transportInfoFields, hkv, if_neg h1, if_neg h2, if_neg h3,
          if_neg hpa, if_neg h5, if_neg h6, if_neg h7, if_neg h8, if_neg h9,
          if_pos h10]
      by_cases h11 : p = "timeline"
      · obtain ⟨k, hk⟩ := Option.isSome_iff_exists.mp
          (hints (Or.inr (Or.inr (Or.inr h11))))
        refine tr { st with timeline_playhead := k } rfl ?_
        simp only [transportInfoFields, hkv, if_neg h1, if_neg h2, if_neg h3,
          if_neg hpa, if_neg h5, if_neg h6, if_neg h7, if_neg h8, if_neg h9,
          if_neg h10, if_pos h11, hk]
      by_cases h12 : p = "input video format"
      · refine tr { st with input_video_format := some v } rfl ?_
        simp only [transportInfoFields, hkv, if_neg h1, if_neg h2, if_neg h3,
          if_neg hpa, if_neg h5, if_neg h6, if_neg h7, if_neg h8, if_neg h9,
          if_neg h10, if_neg h11, if_pos h12]
      by_cases h13 : p = "dynamic range"
      · refine tr { st with dynamic_range := some v } rfl ?_
        simp only [transportInfoFields, hkv, if_neg h1, if_neg h2, if_neg h3,
          if_neg hpa, if_neg h5, if_neg h6, if_neg h7, if_neg h8, if_neg h9,
          if_neg h10, if_neg h11, if_neg h12, if_pos h13]
      · refine tr st rfl ?_
        simp only [transportInfoFields, hkv, if_neg h1, if_neg h2, if_neg h3,
          if_neg hpa, if_neg h5, if_neg h6, if_neg h7, if_neg h8, if_neg h9,
          if_neg h10, if_neg h11, if_neg h12, if_neg h13]

/-- C5: for a well-formed transport-info body carrying exactly one active
slot field, the sentinel value none clears the active slot and emits no
command, while a numeric value k sets the active slot to k and emits
exactly one clips get request. -/
theorem C5_transport_active_slot (st : Hyperdeck) (body : List String)
    (hwf : ∀ line ∈ body, TransportLineOk line) :
    (activeSlotValues body = ["none"] →
      ∃ st2, transportInfo st body = some (st2, []) ∧
        st2.active_slot = none) ∧
    (∀ v k, activeSlotValues body = [v] → v ≠ "none" → pyInt v = some k →
      ∃ st2, transportInfo st body = some (st2, ["clips get"]) ∧
        st2.active_slot = some k) := by
  obtain ⟨_, i2, i3⟩ := transportFields_active body st [] hwf
  exact ⟨i3, i2⟩

/-- C5 witness: concrete transport-info bodies with active slot 2 and with
the sentinel none. -/
theorem C5_witness :
    ((∀ line ∈ ["status: play", "active slot: 2"], TransportLineOk line) ∧
      (∀ line ∈ ["active slot: none"], TransportLineOk line)) ∧
    (∃ st2, transportInfo initState ["status: play", "active slot: 2"] =
        some (st2, ["clips get"]) ∧ st2.active_slot = some 2) ∧
    (∃ st2, transportInfo initState ["active slot: none"] = some (st2, []) ∧
      st2.active_slot = none) := by
  have hwf1 : ∀ line ∈ ["status: play", "active slot: 2"],
      TransportLineOk line := by
    intro line hl
    simp only [List.mem_cons, List.not_mem_nil, or_false] at hl
    rcases hl with rfl | rfl
    · exact ⟨"status", "play", by decide,
        fun h => by rcases h with h | h | h | h <;> exact absurd h (by decide),
        fun h => absurd h (by decide)⟩
    · exact ⟨"active slot", "2", by decide,
        fun h => by rcases h with h | h | h | h <;> exact absurd h (by decide),
        fun _ => Or.inr (by decide)⟩
  have hwf2 : ∀ line ∈ ["active slot: none"], TransportLineOk line := by
    intro line hl
    simp only [List.mem_cons, List.not_mem_nil, or_false] at hl
    rcases hl with rfl
    exact ⟨"active slot", "none", by decide,
      fun h => by rcases h with h | h | h | h <;> exact absurd h (by decide),
      fun _ => Or.inl rfl⟩
  refine ⟨⟨hwf1, hwf2⟩, ?_, ?_⟩
  · exact (C5_transport_active_slot initState ["status: play", "active slot: 2"]
      hwf1).2 "2" 2 (by decide) (by decide) (by decide)
  · exact (C5_transport_active_slot initState ["active slot: none"] hwf2).1
      (by decide)

theorem slotInfo_fields_ok : ∀ (body : List String) (sl : Slot),
    (∀ line ∈ body, SlotLineOk line) →
    ∃ sl2, Slot.slotInfo sl body = some sl2 := by
  intro body
  induction body with
  | nil => intro sl _; exact ⟨sl, rfl⟩
  | cons line rest ih =>
    intro sl hwf
    obtain ⟨p, v, hkv, hint⟩ := hwf line (List.mem_cons_self line rest)
    have hwfr : ∀ l ∈ rest, SlotLineOk l :=
      fun l hl => hwf l (List.mem_cons_of_mem line hl)
    by_cases h1 : p = "status"
    · obtain ⟨sl2, heq⟩ := ih { sl with status := some v } hwfr
      exact ⟨sl2, by simp only [Slot.slotInfo, hkv, if_pos h1]; exact heq⟩
    by_cases h2 : p = "volume name"
    · obtain ⟨sl2, heq⟩ := ih { sl with volume_name := some v } hwfr
      exact ⟨sl2, by
        simp only [Slot.slotInfo, hkv, if_neg h1, if_pos h2]; exact heq⟩
    by_cases h3 : p = "recording time"
    · obtain ⟨k, hk⟩ := Option.isSome_iff_exists.mp (hint h3)
      obtain ⟨sl2, heq⟩ := ih { sl with recording_time := k } hwfr
      exact ⟨sl2, by
        simp only [Slot.slotInfo, hkv, if_neg h1, if_neg h2, if_pos h3, hk]
        exact heq⟩
    by_cases h4 : p = "video format"
    · obtain ⟨sl2, heq⟩ := ih
        { sl with video_format := some v, framerate := parse_framerate v } hwfr
      exact ⟨sl2, by
        simp only [Slot.slotInfo, hkv, if_neg h1, if_neg h2, if_neg h3,
          if_pos h4]
        exact heq⟩
    by_cases h5 : p = "blocked"
    · obtain ⟨sl2, heq⟩ := ih { sl with blocked := v = "true" } hwfr
      exact ⟨sl2, by
        simp only [Slot.slotInfo, hkv, if_neg h1, if_neg h2, if_neg h3,
          if_neg h4, if_pos h5]
        exact heq⟩
    · obtain ⟨sl2, heq⟩ := ih sl hwfr
      exact ⟨sl2, by
        simp only [Slot.slotInfo, hkv, if_neg h1, if_neg h2, if_neg h3,
          if_neg h4, if_neg h5]
        exact heq⟩

theorem foldl_add_rec_gen : ∀ (m : List (String × Slot)) (a : Int),
    m.foldl (fun acc p => acc + p.2.recording_time) a =
      a + slotRecordingSum m := by
  intro m
  induction m with
  | nil => intro a; simp [slotRecordingSum]
  | cons q rest ih =>
    intro a
    simp only [List.foldl_cons, ih, slotRecordingSum, List.map_cons,
      List.sum_cons]
    ring

/-- C4 (amended): after a slot-info handler processes a well-formed body
addressing an existing slot, remaining_time equals the sum of
recording_time over all slots in the updated map.  (The unrestricted
always-invariant fails: device-info recreates the slots without
recomputing remaining_time, see the counterexample.) -/
theorem C4_slot_info_remaining (st : Hyperdeck) (body : List String)
    (k : String) (hwf : ∀ line ∈ body, SlotLineOk line)
    (hfind : findSlotId body = some (some k)) (hk : ¬ k = "none")
    (hslot : (dget st.slots k).isSome) :
    ∃ st2, slotInfo st body = some (st2, []) ∧
      st2.remaining_time = slotRecordingSum st2.slots := by
  obtain ⟨sl, hsl⟩ := Option.isSome_iff_exists.mp hslot
  obtain ⟨sl2, hsl2⟩ := slotInfo_fields_ok body sl hwf
  have hcond : ¬ (some k = some "none") := by
    intro h
    exact hk (Option.some.inj h)
  refine ⟨recordingTimeRemaining { st with slots := dset st.slots k sl2 },
    ?_, ?_⟩
  · rw [slotInfo, hfind]
    simp only [if_neg hcond]
    rw [hsl]
    dsimp only
    rw [hsl2]
  · show ({ st with slots := dset st.slots k sl2 } : Hyperdeck).slots.foldl
      (fun acc p => acc + p.2.recording_time) 0 = _
    rw [foldl_add_rec_gen]
    simp [recordingTimeRemaining]

/-- C4 counterexample: device-info slot recreation does not recompute
remaining_time.  After device-info (slot count 1), slot-info reporting
100 seconds, then device-info again, remaining_time is still 100 while
the freshly recreated slots sum to 0. -/
theorem C4_counterexample :
    Option.map (fun p => (p.1.remaining_time, slotRecordingSum p.1.slots))
      (((deviceInfo initState ["slot count: 1"]).bind
          (fun p => slotInfo p.1 ["slot id: 1", "recording time: 100"])).bind
        (fun p => deviceInfo p.1 ["slot count: 1"])) = some (100, 0) := by
  decide

/-- C4 witness: with two slots holding 100 and 250 seconds, remaining_time
recomputes to 350 after the second slot updates. -/
theorem C4_witness :
    ((∀ line ∈ ["slot id: 2", "recording time: 250"], SlotLineOk line) ∧
      findSlotId ["slot id: 2", "recording time: 250"] = some (some "2") ∧
      ¬ ("2" : String) = "none" ∧
      (dget (((deviceInfo initState ["slot count: 2"]).bind
          (fun p => slotInfo p.1 ["slot id: 1", "recording time: 100"])).map
            Prod.fst |>.getD initState).slots "2").isSome) ∧
    (∃ st2, slotInfo (((deviceInfo initState ["slot count: 2"]).bind
        (fun p => slotInfo p.1 ["slot id: 1", "recording time: 100"])).map
          Prod.fst |>.getD initState) ["slot id: 2", "recording time: 250"] =
        some (st2, []) ∧
      st2.remaining_time = slotRecordingSum st2.slots) ∧
    Option.map (fun p => p.1.remaining_time)
      (slotInfo (((deviceInfo initState ["slot count: 2"]).bind
          (fun p => slotInfo p.1 ["slot id: 1", "recording time: 100"])).map
            Prod.fst |>.getD initState)
        ["slot id: 2", "recording time: 250"]) = some 350 := by
  have hwf : ∀ line ∈ ["slot id: 2", "recording time: 250"], SlotLineOk line := by
    intro line hl
    simp only [List.mem_cons, List.not_mem_nil, or_false] at hl
    rcases hl with rfl | rfl
    · exact ⟨"slot id", "2", by decide, fun h => absurd h (by decide)⟩
    · exact ⟨"recording time", "250", by decide, fun _ => by decide⟩
  refine ⟨⟨hwf, by decide, by decide, by decide⟩, ?_, by decide⟩
  exact C4_slot_info_remaining _ ["slot id: 2", "recording time: 250"] "2"
    hwf (by decide) (by decide) (by decide)

theorem dget_dset_self : ∀ (m : List (String × Slot)) (k : String) (v : Slot),
    dget (dset m k v) k = some v := by
  intro m k v
  induction m with
  | nil => simp [dset, dget]
  | cons q rest ih =>
    by_cases hq : q.1 = k
    · simp [dset, hq, dget]
    · simp only [dset]
      rw [if_neg ?_]
      · simp only [dget]
        rw [if_neg hq]
        exact ih
      · exact hq

theorem dget_dset_other : ∀ (m : List (String × Slot)) (k : String) (v : Slot)
    (key : String), ¬ key = k → dget (dset m k v) key = dget m key := by
  intro m k v key hne
  induction m with
  | nil =>
    simp only [dset, dget]
    rw [if_neg (fun h => hne h.symm)]
  | cons q rest ih =>
    by_cases hq : q.1 = k
    · simp only [dset, if_pos hq, dget]
      have hqk : ¬ q.1 = key := by rw [hq]; exact fun h => hne h.symm
      rw [if_neg (show ¬ k = key from fun h => hne h.symm), if_neg hqk]
    · simp only [dset, if_neg hq, dget]
      by_cases hqk : q.1 = key
      · rw [if_pos hqk, if_pos hqk]
      · rw [if_neg hqk, if_neg hqk]
        exact ih

theorem deviceFields_spec : ∀ (body : List String) (st : Hyperdeck),
    (∀ line ∈ body, DeviceLineOk line) →
    ∃ st2, deviceInfoFields st body = some st2 ∧ st2.slots = st.slots ∧
      (lastFieldValue "slot count" body = none →
        st2.slot_count = st.slot_count) ∧
      (∀ w k2, lastFieldValue "slot count" body = some w → pyInt w = some k2 →
        st2.slot_count = k2) := by
  intro body
  induction body with
  | nil => intro st _; exact ⟨st, rfl, rfl, fun _ => rfl, fun w k2 hw _ => by
      exact absurd hw (by simp [lastFieldValue])⟩
  | cons line rest ih =>
    intro st hwf
    obtain ⟨p, v, hkv, hint⟩ := hwf line (List.mem_cons_self line rest)
    have hwfr : ∀ l ∈ rest, DeviceLineOk l :=
      fun l hl => hwf l (List.mem_cons_of_mem line hl)
    by_cases h4 : p = "slot count"
    · obtain ⟨k, hk⟩ := Option.isSome_iff_exists.mp (hint h4)
      obtain ⟨st2, heq, hsl, hnone, hsome⟩ := ih { st with slot_count := k } hwfr
      have hred : deviceInfoFields st (line :: rest) =
          deviceInfoFields { st with slot_count := k } rest := by
        by_cases h1 : p = "protocol version"
        · exact absurd (h1 ▸ h4) (by decide)
        by_cases h2 : p = "model"
        · exact absurd (h2 ▸ h4) (by decide)
        by_cases h3 : p = "unique id"
        · exact absurd (h3 ▸ h4) (by decide)
        simp only [deviceInfoFields, hkv, if_neg h1, if_neg h2, if_neg h3,
          if_pos h4, hk]
      refine ⟨st2, hred ▸ heq, hsl, ?_, ?_⟩
      · intro hlf
        exfalso
        revert hlf
        simp only [lastFieldValue, hkv, if_pos h4]
        cases lastFieldValue "slot count" rest <;> simp
      · intro w k2 hw hwk
        revert hw
        simp only [lastFieldValue, hkv, if_pos h4]
        cases hrest : lastFieldValue "slot count" rest with
        | some w2 =>
          intro hw
          injection hw with hw
          subst hw
          exact hsome w2 k2 hrest hwk
        | none =>
          intro hw
          injection hw with hw
          subst hw
          rw [hk] at hwk
          injection hwk with hwk
          rw [hnone hrest]
          exact hwk
    · obtain ⟨st', hup⟩ : ∃ st' : Hyperdeck,
          deviceInfoFields st (line :: rest) = deviceInfoFields st' rest ∧
            st'.slots = st.slots ∧ st'.slot_count = st.slot_count := by
        by_cases h1 : p = "protocol version"
        · exact ⟨{ st with protocol_version := some v },
            by simp only [deviceInfoFields, hkv, if_pos h1], rfl, rfl⟩
        by_cases h2 : p = "model"
        · exact ⟨{ st with model := some v },
            by simp only [deviceInfoFields, hkv, if_neg h1, if_pos h2], rfl, rfl⟩
        by_cases h3 : p = "unique id"
        · exact ⟨{ st with unique_id := some v },
            by simp only [deviceInfoFields, hkv, if_neg h1, if_neg h2,
              if_pos h3], rfl, rfl⟩
        by_cases h5 : p = "software version"
        · exact ⟨{ st with software_version := some v },
            by simp only [deviceInfoFields, hkv, if_neg h1, if_neg h2,
              if_neg h3, if_neg h4, if_pos h5], rfl, rfl⟩
        · exact ⟨st, by simp only [deviceInfoFields, hkv, if_neg h1, if_neg h2,
            if_neg h3, if_neg h4, if_neg h5], rfl, rfl⟩
      obtain ⟨hred, hslots, hcount⟩ := hup
      obtain ⟨st2, heq, hsl, hnone, hsome⟩ := ih st' hwfr
      have hlf : lastFieldValue "slot count" (line :: rest) =
          lastFieldValue "slot count" rest := by
        simp only [lastFieldValue, hkv, if_neg h4]
        cases lastFieldValue "slot count" rest <;> rfl
      refine ⟨st2, hred ▸ heq, hsl.trans hslots, ?_, ?_⟩
      · intro h
        rw [hlf] at h
        exact (hnone h).trans hcount
      · intro w k2 hw hwk
        rw [hlf] at hw
        exact hsome w k2 hw hwk

theorem deviceInfoLoop_spec : ∀ (n i : Nat) (m : List (String × Slot)),
    (deviceInfoLoop m i n).2 = (List.range n).flatMap (fun j =>
      [("slot info: slot id: " ++ pyStrNat (i + j + 1)),
       ("disk list: slot id: " ++ pyStrNat (i + j + 1))]) ∧
    (∀ j : Nat, j < n →
      dget (deviceInfoLoop m i n).1 (pyStrNat (i + j + 1)) =
        some (Slot.init (Int.ofNat (i + j + 1)))) ∧
    (∀ key, (∀ j : Nat, j < n → ¬ key = pyStrNat (i + j + 1)) →
      dget (deviceInfoLoop m i n).1 key = dget m key) := by
  intro n
  induction n with
  | zero =>
    intro i m
    exact ⟨rfl, fun j hj => absurd hj (by omega), fun key _ => rfl⟩
  | succ k ih =>
    intro i m
    obtain ⟨ihc, ihf, ihp⟩ :=
      ih (i + 1) (dset m (pyStrNat (i + 1)) (Slot.init (Int.ofNat (i + 1))))
    have hshift : ∀ j : Nat, i + 1 + j + 1 = i + (j + 1) + 1 := by omega
    have hstep : (deviceInfoLoop m i (k + 1)).1 =
        (deviceInfoLoop (dset m (pyStrNat (i + 1))
          (Slot.init (Int.ofNat (i + 1)))) (i + 1) k).1 := rfl
    refine ⟨?_, ?_, ?_⟩
    · show ("slot info: slot id: " ++ pyStrNat (i + 1)) ::
        ("disk list: slot id: " ++ pyStrNat (i + 1)) :: _ = _
      rw [List.range_succ_eq_map, List.flatMap_cons, List.flatMap_map]
      have hz : i + 0 + 1 = i + 1 := by omega
      rw [ihc]
      simp only [Function.comp, hshift, hz]
      rfl
    · intro j hj
      cases j with
      | zero =>
        have hz : i + 0 + 1 = i + 1 := by omega
        rw [hz, hstep]
        have havoid : ∀ j2 : Nat, j2 < k →
            ¬ pyStrNat (i + 1) = pyStrNat (i + 1 + j2 + 1) := by
          intro j2 _ hcontra
          have := pyStrNat_inj _ _ hcontra
          omega
        rw [ihp (pyStrNat (i + 1)) havoid, dget_dset_self]
      | succ j2 =>
        have hz : i + (j2 + 1) + 1 = i + 1 + j2 + 1 := by omega
        rw [hz, hstep]
        exact ihf j2 (by omega)
    · intro key havoid
      have havoidr : ∀ j : Nat, j < k → ¬ key = pyStrNat (i + 1 + j + 1) := by
        intro j hj
        rw [hshift j]
        exact havoid (j + 1) (by omega)
      rw [hstep, ihp key havoidr]
      exact dget_dset_other m (pyStrNat (i + 1)) _ key
        (by
          have := havoid 0 (by omega)
          simpa using this)

theorem deviceFollowup_len : ∀ n : Nat, (deviceFollowupCommands n).length = 2 * n := by
  intro n
  induction n with
  | zero => rfl
  | succ k ih =>
    rw [deviceFollowupCommands, List.range_succ, List.flatMap_append]
    rw [deviceFollowupCommands] at ih
    simp only [List.length_append, ih, List.flatMap_cons, List.flatMap_nil]
    simp
    omega

/-- C2 (amended): for a well-formed device-info body reporting slot count
N, the handler emits exactly 2N follow-up command lines (one slot-info
and one disk-list request per slot id 1..N, in slot order) and the slot
map afterwards holds a freshly created Slot under every key "1".."N",
its keys being exactly those together with any pre-existing keys.  (The
claim that no other keys survive fails: slots from an earlier device-info
with a larger count persist, see the counterexample.) -/
theorem C2_device_info (st : Hyperdeck) (body : List String) (N : Nat)
    (vN : String) (hwf : ∀ line ∈ body, DeviceLineOk line)
    (hlast : lastFieldValue "slot count" body = some vN)
    (hparse : pyInt vN = some (Int.ofNat N)) :
    ∃ st2, deviceInfo st body = some (st2, deviceFollowupCommands N) ∧
      (∀ i : Nat, 1 ≤ i → i ≤ N →
        dget st2.slots (pyStrNat i) = some (Slot.init (Int.ofNat i))) ∧
      (∀ key, (dget st2.slots key).isSome ↔
        ((dget st.slots key).isSome ∨
          ∃ i : Nat, 1 ≤ i ∧ i ≤ N ∧ key = pyStrNat i)) ∧
      (deviceFollowupCommands N).length = 2 * N := by
  obtain ⟨st3, heq, hslots, _, hsome⟩ := deviceFields_spec body st hwf
  have hsc : st3.slot_count = Int.ofNat N := hsome vN _ hlast hparse
  have htn : st3.slot_count.toNat = N := by rw [hsc]; simp
  obtain ⟨hcmds, hfresh, hpres⟩ := deviceInfoLoop_spec N 0 st3.slots
  have hcmds2 : (deviceInfoLoop st3.slots 0 N).2 = deviceFollowupCommands N := by
    rw [hcmds, deviceFollowupCommands]
    simp only [Nat.zero_add]
  refine ⟨{ st3 with slots := (deviceInfoLoop st3.slots 0 N).1 }, ?_, ?_, ?_,
    deviceFollowup_len N⟩
  · rw [deviceInfo, heq]
    dsimp only
    rw [htn, hcmds2]
  · intro i h1 hN
    show dget (deviceInfoLoop st3.slots 0 N).1 (pyStrNat i) = _
    have hz : 0 + (i - 1) + 1 = i := by omega
    have := hfresh (i - 1) (by omega)
    rw [hz] at this
    exact this
  · intro key
    have hproj : ({ st3 with slots := (deviceInfoLoop st3.slots 0 N).1 } :
        Hyperdeck).slots = (deviceInfoLoop st3.slots 0 N).1 := rfl
    rw [hproj]
    constructor
    · intro hk
      by_cases hc : ∃ j : Nat, j < N ∧ key = pyStrNat (0 + j + 1)
      · obtain ⟨j, hj, rfl⟩ := hc
        right
        refine ⟨j + 1, by omega, by omega, ?_⟩
        congr 1
        omega
      · push_neg at hc
        left
        rw [hpres key (fun j hj => hc j hj), hslots] at hk
        exact hk
    · intro hk
      rcases hk with hk | ⟨i, h1, hN, rfl⟩
      · by_cases hc : ∃ j : Nat, j < N ∧ key = pyStrNat (0 + j + 1)
        · obtain ⟨j, hj, rfl⟩ := hc
          rw [hfresh j hj]
          rfl
        · push_neg at hc
          rw [hpres key (fun j hj => hc j hj), hslots]
          exact hk
      · have hz : 0 + (i - 1) + 1 = i := by omega
        have := hfresh (i - 1) (by omega)
        rw [hz] at this
        rw [this]
        rfl

/-- C2 counterexample: device-info does not clear stale slots.  After a
device-info reporting slot count 3 and then one reporting slot count 2,
the slot map keys are "1", "2", "3", not exactly "1", "2". -/
theorem C2_counterexample :
    Option.map (fun p => p.1.slots.map Prod.fst)
      ((deviceInfo initState ["slot count: 3"]).bind
        (fun p => deviceInfo p.1 ["slot count: 2"])) =
      some ["1", "2", "3"] := by
  decide

/-- C2 witness: device-info with slot count 2 on a fresh state. -/
theorem C2_witness :
    ((∀ line ∈ ["slot count: 2"], DeviceLineOk line) ∧
      lastFieldValue "slot count" ["slot count: 2"] = some "2" ∧
      pyInt "2" = some (Int.ofNat 2)) ∧
    (∃ st2, deviceInfo initState ["slot count: 2"] =
        some (st2, deviceFollowupCommands 2) ∧
      (∀ i : Nat, 1 ≤ i → i ≤ 2 →
        dget st2.slots (pyStrNat i) = some (Slot.init (Int.ofNat i))) ∧
      (∀ key, (dget st2.slots key).isSome ↔
        ((dget initState.slots key).isSome ∨
          ∃ i : Nat, 1 ≤ i ∧ i ≤ 2 ∧ key = pyStrNat i)) ∧
      (deviceFollowupCommands 2).length = 2 * 2) := by
  have hwf : ∀ line ∈ ["slot count: 2"], DeviceLineOk line := by
    intro line hl
    simp only [List.mem_cons, List.not_mem_nil, or_false] at hl
    rcases hl with rfl
    exact ⟨"slot count", "2", by decide, fun _ => by decide⟩
  exact ⟨⟨hwf, by decide, by decide⟩,
    C2_device_info initState ["slot count: 2"] 2 "2" hwf (by decide) (by decide)⟩

/-- C3: the code violates the claimed invariant.  Timeline._clip_info
resets the clip list but never resets the running duration, so
processing the same one-clip body (5 frames) twice leaves
Timeline.duration at 10 while the clips in the list sum to 5. -/
theorem C3_duration_accumulates :
    Option.map (fun p => (p.1.timeline.duration,
        clipFrameSum p.1.timeline.clips))
      ((clipsInfo initState ["1: A 00:00:00:00 00:00:00:05"]).bind
        (fun p => clipsInfo p.1 ["1: A 00:00:00:00 00:00:00:05"])) =
      some (10, 5) := by
  decide
